import Mathlib

/-!
Verification of the `pip` / `pipenv` Ansible modules and their shared helper
library (`lib/ansible/module_utils/pip.py`,
`lib/ansible/modules/packaging/language/pip.py`,
`lib/ansible/modules/packaging/language/pipenv.py`).

The Python code is shallowly embedded:

* external effects (running a command, probing the filesystem, resolving a
  binary on PATH, `pkg_resources.Requirement.parse`, `shlex.split`) are an
  oracle record `Host`;
* every `module.run_command` invocation is recorded in a trace of
  `(command, result)` pairs, so theorems can talk about which subprocesses
  were run and with which exit codes;
* `module.exit_json` / `module.fail_json` / an uncaught Python exception
  terminate the run and are the three constructors of `Outcome`;
* the process umask and the `VIRTUAL_ENV` environment variable (the only
  process-global state the two modules touch) are threaded explicitly
  through `pipMainRun` / `pipenvMainRun`;
* Python string operations are modelled with their Lean counterparts
  (`split(sep)` is `pySplit`, `x in s` is `pyContains`, `",".join`
  is `pyJoin`); `distutils.version.LooseVersion` is modelled below with the
  Python 2 convention that an int compares below a str.
-/

namespace AnsPip

/-- Python exceptions that the embedded code can raise. -/
inductive PyErr
  | valueError
  | attributeError
  | typeError
  | indexError
deriving DecidableEq, Repr

/-- A command passed to `module.run_command`: either a shell string or an
argv list, exactly as at the Python call sites. -/
inductive Cmd
  | str (s : String)
  | argv (a : List String)
deriving DecidableEq, Repr

/-- The `(rc, out, err)` triple returned by `module.run_command`. -/
structure RunResult where
  rc : Int
  out : String
  err : String
deriving DecidableEq, Repr

/-- One recorded subprocess invocation. -/
abbrev Entry := Cmd × RunResult

/-- How a module run terminates: `module.exit_json` (with the `changed` flag
and accumulated stdout/stderr), `module.fail_json` (with its message), or an
uncaught Python exception. -/
inductive Outcome
  | exitJson (changed : Bool) (stdout stderr : String)
  | failJson (msg : String)
  | pyError (e : PyErr)
deriving DecidableEq, Repr

/-- Whether a run ended in `module.exit_json` (success). -/
def Outcome.isExit : Outcome → Bool
  | .exitJson _ _ _ => true
  | _ => false

/-- Python truthiness of an optional string (`None` and the empty string are
falsy). -/
def optTruthy : Option String → Bool
  | some s => s ≠ ""
  | none => false

/-- Fuel-driven core of `pySplit`: split `l` on the nonempty separator
`sep`, non-overlapping and left to right, keeping empty pieces, exactly like
Python `str.split(sep)`.  The fuel is an upper bound on `l.length`, which
keeps the recursion structural. -/
def splitFuel (sep : List Char) : Nat → List Char → List (List Char)
  | 0, _ => [[]]
  | fuel + 1, l =>
    match l with
    | [] => [[]]
    | c :: rest =>
      if sep.isPrefixOf l then [] :: splitFuel sep fuel (l.drop sep.length)
      else
        match splitFuel sep fuel rest with
        | [] => [[c]]
        | p :: ps => (c :: p) :: ps

/-- Python `s.split(sep)` for a nonempty separator (the modules never split
on an empty one). -/
def pySplit (s sep : String) : List String :=
  if sep = "" then [s]
  else (splitFuel sep.data s.data.length s.data).map String.mk

/-- Split a character list at every character satisfying `p`, keeping empty
pieces. -/
def splitWhenList (p : Char → Bool) : List Char → List (List Char)
  | [] => [[]]
  | c :: rest =>
    if p c then [] :: splitWhenList p rest
    else
      match splitWhenList p rest with
      | [] => [[c]]
      | q :: qs => (c :: q) :: qs

/-- Python `s.lstrip()`. -/
def pyTrimLeft (s : String) : String := String.mk (s.data.dropWhile Char.isWhitespace)

/-- Python `s.strip()`. -/
def pyTrim (s : String) : String :=
  String.mk (((s.data.dropWhile Char.isWhitespace).reverse.dropWhile Char.isWhitespace).reverse)

/-- Python `s.lower()` (ASCII, as the module only compares package names). -/
def pyLower (s : String) : String := String.mk (s.data.map Char.toLower)

/-- Drop the first `n` characters. -/
def pyDrop (s : String) (n : Nat) : String := String.mk (s.data.drop n)

/-- Python `sub in s` for a nonempty `sub`: the split on `sub` has at least
two pieces. -/
def pyContains (s sub : String) : Bool := 2 ≤ (pySplit s sub).length

/-- Python `s.startswith(pre)`. -/
def strStartsWith (s pre : String) : Bool := pre.data.isPrefixOf s.data

/-- Python `s.endswith(suf)`. -/
def strEndsWith (s suf : String) : Bool := suf.data.isSuffixOf s.data

/-- Python `sep.join(xs)`. -/
def pyJoin (sep : String) : List String → String
  | [] => ""
  | [x] => x
  | x :: y :: t => x ++ sep ++ pyJoin sep (y :: t)

/-- Python `os.path.join(a, b)` for the cases the modules hit: an absolute
second component replaces the first, otherwise the two are joined with a
single separator. -/
def pathJoin (a b : String) : String :=
  if strStartsWith b "/" then b
  else if a = "" then b
  else if strEndsWith a "/" then a ++ b
  else a ++ "/" ++ b

/-- Python `os.path.basename` (everything after the last slash). -/
def pyBasename (s : String) : String := ((pySplit s "/").getLastD s)

/-- Python `stdout.strip().split()`: split on whitespace runs, dropping
empty pieces. -/
def pyWords (s : String) : List String :=
  ((splitWhenList Char.isWhitespace (pyTrim s).data).map String.mk).filter (fun w => w ≠ "")

/-- A digit of `int(s, 8)`. -/
def octDigit (c : Char) : Bool := 48 ≤ c.toNat && c.toNat ≤ 55

/-- Python `int(s, 8)` (models the builtin: optional surrounding whitespace,
an optional sign, an optional `0o` prefix, then octal digits). -/
def parseOctal (s : String) : Option Int :=
  let t := pyTrim s
  let (neg, t1) :=
    if strStartsWith t "-" then (true, pyDrop t 1)
    else if strStartsWith t "+" then (false, pyDrop t 1)
    else (false, t)
  let t2 := if strStartsWith t1 "0o" || strStartsWith t1 "0O" then pyDrop t1 2 else t1
  if t2 ≠ "" && t2.data.all octDigit then
    let v : Int := Int.ofNat (t2.data.foldl (fun a c => a * 8 + (c.toNat - 48)) 0)
    some (if neg then -v else v)
  else none

/-! ## `distutils.version.LooseVersion`

`LooseVersion` tokenises the version string on the regex
`(\d+ | [a-z]+ | \.)`, drops the dots, converts numeric tokens to integers
and compares the resulting lists with Python list comparison.  Mixed
int/str element comparison follows the Python 2 rule (an int sorts below a
str); the modules are Python 2 compatible sources. -/

/-- One component of a parsed `LooseVersion`: an integer or a string. -/
inductive LVPart
  | num (n : Nat)
  | str (s : String)
deriving DecidableEq, Repr

/-- Character classes of the `LooseVersion` tokenizer: digit / dot /
lowercase letter / anything else. -/
def lvClass (c : Char) : Nat :=
  if c.isDigit then 0 else if c = '.' then 1 else if c.isLower then 2 else 3

/-- Group consecutive characters of the same `lvClass`. -/
def lvGroup : List Char → List (Nat × List Char)
  | [] => []
  | c :: cs =>
    match lvGroup cs with
    | [] => [(lvClass c, [c])]
    | (k, g) :: rest =>
      if lvClass c = k then (k, c :: g) :: rest
      else (lvClass c, [c]) :: (k, g) :: rest

/-- Decimal value of a digit run. -/
def digitsVal (l : List Char) : Nat := l.foldl (fun a c => a * 10 + (c.toNat - 48)) 0

/-- Parse a version string into `LooseVersion` components. -/
def looseVersion (s : String) : List LVPart :=
  ((lvGroup s.data).filter (fun g => g.1 ≠ 1)).map
    (fun g => if g.1 = 0 then LVPart.num (digitsVal g.2) else LVPart.str (String.mk g.2))

/-- Compare two components (Python 2 rule for the mixed case). -/
def LVPart.cmps : LVPart → LVPart → Ordering
  | .num a, .num b => compare a b
  | .str a, .str b => compare a b
  | .num _, .str _ => .lt
  | .str _, .num _ => .gt

/-- Python list comparison of component lists. -/
def lvCompare : List LVPart → List LVPart → Ordering
  | [], [] => .eq
  | [], _ :: _ => .lt
  | _ :: _, [] => .gt
  | a :: as, b :: bs =>
    match a.cmps b with
    | .eq => lvCompare as bs
    | o => o

/-- The operator strings that key `op_dict` in the source. -/
def opStrings : List String := [">=", "<=", ">", "<", "==", "!=", "~="]

/-- A version-specifier operator as it appears in a parsed requirement
(`Requirement.parse` only ever produces these). -/
inductive PipOp
  | ge
  | le
  | gt
  | lt
  | eq
  | ne
  | compat
deriving DecidableEq, Repr

/-- The source's `op_dict` applied at an operator: note that `~=` (`compat`)
is mapped to `operator.ge`, exactly as in the table. -/
def op_dict (o : PipOp) (a b : List LVPart) : Bool :=
  match o with
  | .ge => lvCompare a b ≠ Ordering.lt
  | .le => lvCompare a b ≠ Ordering.gt
  | .gt => lvCompare a b = Ordering.gt
  | .lt => lvCompare a b = Ordering.lt
  | .eq => lvCompare a b = Ordering.eq
  | .ne => lvCompare a b ≠ Ordering.eq
  | .compat => lvCompare a b ≠ Ordering.lt

/-- The standard meaning of each operator over `LooseVersion` values, written
from the spec's words for the refinement comparison: the six relational
operators through the order, and `~=` as the compatible-release constraint
(at least the given version, and equal in every component but the last one
of the given version, per PEP 440). -/
def specStandardOp (o : PipOp) (a b : List LVPart) : Bool :=
  match o with
  | .ge => lvCompare a b ≠ Ordering.lt
  | .le => lvCompare a b ≠ Ordering.gt
  | .gt => lvCompare a b = Ordering.gt
  | .lt => lvCompare a b = Ordering.lt
  | .eq => lvCompare a b = Ordering.eq
  | .ne => lvCompare a b ≠ Ordering.eq
  | .compat =>
    (lvCompare a b ≠ Ordering.lt) && decide (a.take (b.length - 1) = b.take (b.length - 1))

/-- The body of the `except AttributeError` fallback in
`Package.is_satisfied_by`:
`all(op_dict[op](LooseVersion(version_to_test), LooseVersion(ver)) for op, ver in specs)`. -/
def fallbackSatisfied (specs : List (PipOp × String)) (version_to_test : String) : Bool :=
  specs.all (fun s => op_dict s.1 (looseVersion version_to_test) (looseVersion s.2))

/-- The same conjunction with every constraint given its standard meaning
(spec side of the refinement comparison). -/
def specSatisfied (specs : List (PipOp × String)) (version_to_test : String) : Bool :=
  specs.all (fun s => specStandardOp s.1 (looseVersion version_to_test) (looseVersion s.2))

/-! ## `Package` -/

/-- What the embedded code reads off a `pkg_resources.Requirement` produced
by `Requirement.parse`: the project name, the `(op, version)` spec pairs,
the `specifier.contains` test (`none` models an old setuptools whose
requirement has no `specifier` attribute, which sends the code to the
`LooseVersion` fallback), and its `str()` rendering. -/
structure ReqInfo where
  project_name : String
  specs : List (PipOp × String)
  containsF : Option (String → Bool)
  reprStr : String

/-- The `Package` wrapper state after `__init__`: `package_name`,
`_plain_package` and the parsed requirement (if parsing succeeded). -/
structure Package where
  package_name : String
  plain : Bool
  req : Option ReqInfo

/-- The tail of `Package.__init__` once the string to parse is fixed:
on success the name is taken from the requirement (with the
`distribute` / `setuptools` replacement), on `ValueError` the package stays
non-plain. -/
def packageFromParse (name_string : String) (ri : Option ReqInfo) : Package :=
  match ri with
  | some r =>
    { package_name := if r.project_name = "distribute" then "setuptools" else r.project_name,
      plain := true, req := some r }
  | none => { package_name := name_string, plain := false, req := none }

/-- `Package.__init__(name_string)` (no version argument). -/
def mkPackagePlain (reqParse : String → Option ReqInfo) (name_string : String) : Package :=
  packageFromParse name_string (reqParse name_string)

/-- `Package.__init__(name_string, version_string)`.  A nonempty version
string is left-stripped and joined to the name with `==` when it starts with
a digit and with a space otherwise; a version string that strips to empty
makes `version_string[0]` raise `IndexError`. -/
def mkPackage (reqParse : String → Option ReqInfo) (name_string : String)
    (version_string : Option String) : Except PyErr Package :=
  match version_string with
  | none => .ok (mkPackagePlain reqParse name_string)
  | some v0 =>
    if v0 = "" then .ok (mkPackagePlain reqParse name_string)
    else
      let v := pyTrimLeft v0
      if v = "" then .error .indexError
      else
        let sep := if v.front.isDigit then "==" else " "
        .ok (packageFromParse name_string (reqParse (name_string ++ sep ++ v)))

/-- `Package.has_version_specifier`. -/
def Package.has_version_specifier (p : Package) : Bool :=
  if p.plain then
    match p.req with
    | some r => !r.specs.isEmpty
    | none => false
  else false

/-- `Package.is_satisfied_by`: non-plain packages answer false; otherwise
`specifier.contains` when available, else the `LooseVersion` fallback. -/
def Package.is_satisfied_by (p : Package) (version_to_test : String) : Bool :=
  if !p.plain then false
  else
    match p.req with
    | none => false
    | some r =>
      match r.containsF with
      | some f => f version_to_test
      | none => fallbackSatisfied r.specs version_to_test

/-- `Package.__str__`. -/
def Package.strRepr (p : Package) : String :=
  if p.plain then
    match p.req with
    | some r => r.reprStr
    | none => p.package_name
  else p.package_name

/-! ## `_is_present`, `_is_package_name`, `_recover_package_name` -/

/-- The `req` argument as `_is_present` receives it at its two call sites:
a `Package` from the pip module, or the raw string the pipenv module
passes. -/
inductive ReqArg
  | pkg (p : Package)
  | str (s : String)

/-- `_is_present(module, req, installed_pkgs)`.  Entries without `==` are
skipped; an entry whose split on `==` is not exactly two pieces makes the
two-way unpack raise `ValueError`; accessing `req.package_name` on a plain
string raises `AttributeError`. -/
def _is_present (req : ReqArg) : List String → Except PyErr Bool
  | [] => .ok false
  | pkg :: rest =>
    if pyContains pkg "==" then
      match pySplit pkg "==" with
      | [pkg_name, pkg_version] =>
        match req with
        | .str _ => .error .attributeError
        | .pkg P =>
          if pyLower pkg_name = P.package_name then
            if P.is_satisfied_by pkg_version then .ok true
            else _is_present req rest
          else _is_present req rest
      | _ => .error .valueError
    else _is_present req rest

/-- `_is_package_name`: not a version specifier, i.e. its left-stripped form
does not start with any `op_dict` operator. -/
def _is_package_name (name : String) : Bool :=
  !(opStrings.any (fun o => strStartsWith (pyTrimLeft name) o))

/-- The reconstruction loop of `_recover_package_name`: `name_parts` is the
group being built, `acc` the finished groups already joined on commas. -/
def recoverLoop : List String → List String → List String → List String
  | [], parts, acc => acc ++ [pyJoin "," parts]
  | n :: rest, parts, acc =>
    if _is_package_name n then
      if parts ≠ [] then recoverLoop rest [n] (acc ++ [pyJoin "," parts])
      else recoverLoop rest [n] acc
    else recoverLoop rest (parts ++ [n]) acc

/-- The flat comma-split list `_recover_package_name` starts from. -/
def flatSplit (names : List String) : List String :=
  (names.map (fun l => pySplit l ",")).flatten

/-- `_recover_package_name`. -/
def _recover_package_name (names : List String) : List String :=
  recoverLoop (flatSplit names) [] []

/-- Proof-side reformulation of `recoverLoop`: the contiguous groups of
tokens it joins, before joining.  A group is flushed exactly when a package
name arrives while `name_parts` is nonempty. -/
def buildGroups : List String → List String → List (List String)
  | [], parts => [parts]
  | n :: rest, parts =>
    if _is_package_name n = true ∧ parts ≠ [] then parts :: buildGroups rest [n]
    else buildGroups rest (parts ++ [n])

/-- `_is_vcs_url`: the name matches `(svn|git|hg|bzr)\+` at its start. -/
def isVcsUrl (name : String) : Bool :=
  ["svn+", "git+", "hg+", "bzr+"].any (fun p => strStartsWith name p)

/-! ## The host oracle and the shared subprocess phases -/

/-- Everything outside the two modules: subprocess results, the filesystem,
PATH resolution, the Python runtime flavour, `shlex.split` and
`pkg_resources.Requirement.parse`. -/
structure Host where
  run : Cmd → RunResult
  getBinPath : List String → String → Option String
  pathExists : String → Bool
  isExec : String → Bool
  tmpdir : String
  py3 : Bool
  sysExecutable : String
  shlexSplit : String → List String
  reqParse : String → Option ReqInfo

/-- The message `_fail` builds from the accumulated stdout and stderr. -/
def failMsg (out err : String) : String :=
  (if out ≠ "" then "stdout: " ++ out else "") ++
    (if err ≠ "" then "\n:stderr: " ++ err else "")

/-- `_fail(module, cmd, out, err)` as an outcome. -/
def failOutcome (out err : String) : Outcome := .failJson (failMsg out err)

/-- `_get_cmd_options(module, cmd)`: run `cmd --help`, fail on a nonzero
exit forwarding stdout+stderr, else keep the words starting with `--`. -/
def _get_cmd_options (h : Host) (cmd : String) :
    Except Outcome (List String) × List Entry :=
  let thiscmd := cmd ++ " --help"
  let r := h.run (.str thiscmd)
  if r.rc ≠ 0 then
    (.error (.failJson ("Could not get output from " ++ thiscmd ++ ": " ++ (r.out ++ r.err))),
      [(.str thiscmd, r)])
  else
    (.ok ((pyWords r.out).filter (fun x => strStartsWith x "--")), [(.str thiscmd, r)])

/-- `_get_packages(module, pip, chdir)`: try `pip list --format=freeze`, on
a nonzero exit fall back to `pip freeze`, and only fail when the fallback
also exits nonzero. -/
def _get_packages (h : Host) (pip : String) :
    Except Outcome (String × String × String) × List Entry :=
  let command := pip ++ " list --format=freeze"
  let r := h.run (.str command)
  if r.rc ≠ 0 then
    let command2 := pip ++ " freeze"
    let r2 := h.run (.str command2)
    if r2.rc ≠ 0 then
      (.error (failOutcome r2.out r2.err), [(.str command, r), (.str command2, r2)])
    else (.ok (command2, r2.out, r2.err), [(.str command, r), (.str command2, r2)])
  else (.ok (command, r.out, r.err), [(.str command, r)])

/-- The PATH / virtualenv search of `_get_pip` once the candidate basenames
are fixed: outside a virtualenv the first candidate found on PATH wins;
inside one, the first existing executable `env/bin/<name>`. -/
def pipSearch (h : Host) (env : Option String) (cands : List String) :
    Except Outcome String :=
  match env with
  | none =>
    match cands.firstM (fun b => h.getBinPath [] b) with
    | some p => .ok p
    | none =>
      .error (.failJson ("Unable to find any of " ++ pyJoin ", " cands ++
        " to use.  pip needs to be installed."))
  | some envd =>
    let venvDir := pathJoin envd "bin"
    let cands2 := [cands.headD "pip", "pip"]
    match (cands2.map (fun b => pathJoin venvDir b)).find?
        (fun c => h.pathExists c && h.isExec c) with
    | some c => .ok c
    | none =>
      .error (.failJson ("Unable to find pip in the virtualenv, " ++ envd ++ ", " ++
        "under any of these names: " ++ pyJoin ", " cands2 ++ ". " ++
        "Make sure pip is present in the virtualenv."))

/-- `_get_pip(module, env, executable)` (no subprocess is run: PATH and
virtualenv probing go through the host oracle).  An absolute `executable`
is used directly; a relative one replaces the candidate list. -/
def _get_pip (h : Host) (env : Option String) (executable : Option String) :
    Except Outcome String :=
  let cands : List String := if h.py3 then ["pip3"] else ["pip2", "pip"]
  match executable with
  | some e =>
    if strStartsWith e "/" then .ok e
    else pipSearch h env [e]
  | none => pipSearch h env cands

/-- The module parameters `setup_virtualenv` reads. -/
structure VenvArgs where
  checkMode : Bool
  virtualenv_command : String
  sitePackages : Bool
  virtualenvPython : Option String

/-- The command-resolution step of `setup_virtualenv`: a bare command name
goes through `get_bin_path(required=True)` (whose failure message is
modelled from `AnsibleModule.get_bin_path`). -/
def svResolveCmd (h : Host) (va : VenvArgs) : Except Outcome String :=
  if pyBasename va.virtualenv_command = va.virtualenv_command then
    match h.getBinPath [] va.virtualenv_command with
    | some p => .ok p
    | none =>
      .error (.failJson ("Failed to find required executable " ++ va.virtualenv_command))
  else .ok va.virtualenv_command

/-- The site-packages step of `setup_virtualenv`: add
`--system-site-packages`, or probe `cmd --help` for
`--no-site-packages`. -/
def svSiteStep (h : Host) (va : VenvArgs) (cmd1 : String) :
    Except Outcome String × List Entry :=
  if va.sitePackages then (.ok (cmd1 ++ " --system-site-packages"), [])
  else
    match _get_cmd_options h cmd1 with
    | (.error o, app) => (.error o, app)
    | (.ok opts, app) =>
      (.ok (if opts.contains "--no-site-packages" then cmd1 ++ " --no-site-packages"
        else cmd1), app)

/-- The interpreter-flag step of `setup_virtualenv`: add `-p` unless the
command is pyvenv / `-m venv`, in which case a supplied
`virtualenv_python` is an error. -/
def svPythonStep (h : Host) (va : VenvArgs) (cmd2 : String) : Except Outcome String :=
  if !(pyContains va.virtualenv_command "pyvenv" ||
      pyContains va.virtualenv_command "-m venv") then
    .ok (if optTruthy va.virtualenvPython then
        cmd2 ++ " -p" ++ va.virtualenvPython.getD ""
      else if h.py3 then cmd2 ++ " -p" ++ h.sysExecutable
      else cmd2)
  else if optTruthy va.virtualenvPython then
    .error (.failJson ("virtualenv_python should not be used when" ++
      " using the venv module or pyvenv as virtualenv_command"))
  else .ok cmd2

/-- `setup_virtualenv(module, env, chdir, out, err)`: in check mode exit
immediately with `changed=True`; resolve the virtualenv command, settle the
site-packages and interpreter flags, then run the command, failing on a
nonzero exit with the accumulated output. -/
def setup_virtualenv (h : Host) (va : VenvArgs) (env chdir out err : String) :
    Except Outcome (String × String) × List Entry :=
  let _ := chdir
  if va.checkMode then (.error (.exitJson true "" ""), [])
  else
    match svResolveCmd h va with
    | .error o => (.error o, [])
    | .ok cmd1 =>
      match svSiteStep h va cmd1 with
      | (.error o, app) => (.error o, app)
      | (.ok cmd2, app) =>
        match svPythonStep h va cmd2 with
        | .error o => (.error o, app)
        | .ok cmd3 =>
          let cmd4 := cmd3 ++ " " ++ env
          let r := h.run (.str cmd4)
          let out2 := out ++ r.out
          let err2 := err ++ r.err
          if r.rc ≠ 0 then (.error (failOutcome out2 err2), app ++ [(.str cmd4, r)])
          else (.ok (out2, err2), app ++ [(.str cmd4, r)])

/-- `if env and chdir: env = os.path.join(chdir, env)` (runs on the raw
parameters, before the umask handling). -/
def envAdjust (env chdir : Option String) : Option String :=
  match env, chdir with
  | some e, some c => if e ≠ "" && c ≠ "" then some (pathJoin c e) else some e
  | _, _ => env

/-- Whether the module will create the virtualenv: a truthy `virtualenv`
whose `bin/activate` does not exist. -/
def needsVenv (h : Host) (env : Option String) : Bool :=
  optTruthy env && !(h.pathExists (pathJoin (pathJoin (env.getD "") "bin") "activate"))

/-- The virtualenv-creation step shared by both modules' `main()`: when a
truthy `virtualenv` has no `bin/activate`, run `setup_virtualenv` and record
that the virtualenv was created. -/
def venvStepRun (h : Host) (va : VenvArgs) (chdir : String) (env1 : Option String) :
    Except Outcome (Bool × String × String) × List Entry :=
  if needsVenv h env1 then
    match setup_virtualenv h va (env1.getD "") chdir "" "" with
    | (.error o, app) => (.error o, app)
    | (.ok oe, app) => (.ok (true, oe.1, oe.2), app)
  else (.ok (false, "", ""), [])

/-- Whether a trace entry ran a shell-string command (as opposed to an argv
list; every install/uninstall/sync invocation in the two modules is an argv
list). -/
def strCmdOnly (e : Entry) : Bool :=
  match e.1 with
  | .str _ => true
  | .argv _ => false

/-- The Python one-liners of `_SPECIAL_PACKAGE_CHECKERS`. -/
def specialPackageChecker : String → String
  | "setuptools" => "import setuptools; print(setuptools.__version__)"
  | "pip" => "import pkg_resources; print(pkg_resources.get_distribution(\"pip\").version)"
  | _ => ""

/-- `_get_package_info(module, package, env)`: locate a python interpreter
(in the virtualenv bin when one is given), run the version one-liner, and
render `package==version`; any failure yields `None` without failing the
module. -/
def _get_package_info (h : Host) (package : String) (env : Option String) :
    Option String × List Entry :=
  let optDirs := if optTruthy env then [env.getD "" ++ "/bin"] else []
  match h.getBinPath optDirs "python" with
  | none => (none, [])
  | some py =>
    let c := Cmd.argv [py, "-c", specialPackageChecker package]
    let r := h.run c
    if r.rc ≠ 0 then (none, [(c, r)])
    else (some (package ++ "==" ++ pyTrim r.out), [(c, r)])

/-! ## The pip module's `main()` -/

/-- The `state` parameter. -/
inductive PipState
  | present
  | absent
  | latest
  | forcereinstall
deriving DecidableEq, Repr

/-- `state_map`. -/
def stateArgs : PipState → List String
  | .present => ["install"]
  | .absent => ["uninstall", "-y"]
  | .latest => ["install", "-U"]
  | .forcereinstall => ["install", "-U", "--force-reinstall"]

/-- The pip module's parameters after `AnsibleModule` parsing (defaults as
in the argument spec; `use_mirrors` is parsed but never read and is
omitted). -/
structure PipParams where
  state : PipState := .present
  name : Option (List String) := none
  version : Option String := none
  requirements : Option String := none
  virtualenv : Option String := none
  virtualenv_site_packages : Bool := false
  virtualenv_command : String := "virtualenv"
  virtualenv_python : Option String := none
  extra_args : Option String := none
  editable : Bool := false
  chdir : Option String := none
  executable : Option String := none
  umask : Option String := none
  checkMode : Bool := false

/-- The virtualenv-related parameters `setup_virtualenv` reads from the pip
module. -/
def pipVenvArgs (p : PipParams) : VenvArgs :=
  ⟨p.checkMode, p.virtualenv_command, p.virtualenv_site_packages, p.virtualenv_python⟩

/-- The check-mode loop over `packages`: `_is_present` each one (which can
raise), flag a change for a missing present-package or an installed
absent-package, and stop at the first change. -/
def checkChangedLoop (st : PipState) (pkgList : List String) :
    List Package → Except PyErr Bool
  | [] => .ok false
  | pk :: rest =>
    match _is_present (.pkg pk) pkgList with
    | .error e => .error e
    | .ok ip =>
      if (st = PipState.present ∧ ip = false) ∨ (st = PipState.absent ∧ ip = true) then
        .ok true
      else checkChangedLoop st pkgList rest

/-- One step of the check-mode special case for `setuptools` / `pip`
(packages `pip freeze` does not list): when the package was requested, probe
its version and append the `name==version` line to the package list and to
stdout. -/
def addSpecial (h : Host) (env : Option String) (nameL : List String) (pkg : String)
    (pkgList : List String) (out : String) : List String × String × List Entry :=
  if nameL.contains pkg then
    match _get_package_info h pkg env with
    | (some d, app) => (pkgList ++ [d], out ++ d ++ "\n", app)
    | (none, app) => (pkgList, out, app)
  else (pkgList, out, [])

/-- The pip module's validation of the `version` argument against the
parsed `name` packages (lines 346-360), producing the final package list. -/
def pipPackagesStep (h : Host) (p : PipParams) (nameL : List String) :
    Except Outcome (List Package) :=
  if nameL.isEmpty then .ok []
  else
    let packages := (_recover_package_name nameL).map (mkPackagePlain h.reqParse)
    match p.version with
    | none => .ok packages
    | some ver =>
      if packages.length > 1 then
        .error (.failJson ("'version' argument is ambiguous when installing multiple package distributions. " ++
          "Please specify version restrictions next to each package in 'name' argument."))
      else
        match packages with
        | [] => .error (.pyError .indexError)
        | pk :: _ =>
          if pk.has_version_specifier then
            .error (.failJson ("The 'version' argument conflicts with any version specifier provided along with a package name. " ++
              "Please keep the version specifier, but remove the 'version' argument."))
          else
            match mkPackage h.reqParse pk.package_name (some ver) with
            | .error e => .error (.pyError e)
            | .ok pk2 => .ok [pk2]

/-- The `editable` handling: ensure `-e` is among the extra arguments. -/
def editableExtras (editable : Bool) (extra_args : Option String) : Option String :=
  if editable then
    let args :=
      match extra_args with
      | some ea => if ea ≠ "" then pySplit ea " " else []
      | none => []
    if !(args.contains "-e") then some (pyJoin " " (args ++ ["-e"])) else extra_args
  else extra_args

/-- The freeze-before snapshot: when a requirements file or a VCS url is in
play, capture the listing before installing (its failure fails the
module). -/
def pipFreezeBefore (h : Host) (pip : String) (cond : Bool) :
    Except Outcome (Option String) × List Entry :=
  if cond then
    match _get_packages h pip with
    | (.error o, app) => (.error o, app)
    | (.ok r, app) => (.ok (some r.2.1), app)
  else (.ok none, [])

/-- Running the pip command and computing `changed`: an exit code of 1 on
an uninstall of a package that is not installed passes, any other nonzero
exit fails with the accumulated output; `changed` comes from the
success-message markers or from comparing the freeze snapshots. -/
def pipRunStep (p : PipParams) (h : Host) (venvCreated : Bool) (out err pip : String)
    (cmd : List String) (freezeBefore : Option String) : Outcome × List Entry :=
  let r := h.run (.argv cmd)
  let out := out ++ r.out
  let err := err ++ r.err
  let passUninstall :=
    r.rc = 1 && p.state = PipState.absent &&
      (pyContains r.out "not installed" || pyContains r.err "not installed")
  if !passUninstall && r.rc ≠ 0 then (failOutcome out err, [(.argv cmd, r)])
  else
    let changedStep : Except Outcome Bool × List Entry :=
      if p.state = PipState.absent then
        (.ok (pyContains r.out "Successfully uninstalled"), [])
      else
        match freezeBefore with
        | none => (.ok (pyContains r.out "Successfully installed"), [])
        | some fb =>
          match _get_packages h pip with
          | (.error o, app2) => (.error o, app2)
          | (.ok r2, app2) => (.ok (fb ≠ r2.2.1), app2)
    match changedStep with
    | (.error o, app2) => (o, [(.argv cmd, r)] ++ app2)
    | (.ok chg, app2) => (.exitJson (chg || venvCreated) out err, [(.argv cmd, r)] ++ app2)

/-- The tail of the pip module after the command list is complete: the
check-mode report, or running the pip command with the
freeze-before/freeze-after bookkeeping and the `changed` computation. -/
def pipRest (p : PipParams) (h : Host) (venvCreated : Bool) (out err pip : String)
    (cmd : List String) (packages : List Package) (nameL : List String)
    (extraT : Bool) (hasVcs : Bool) (env1 : Option String) : Outcome × List Entry :=
  if p.checkMode then
    if extraT || optTruthy p.requirements || p.state = PipState.latest || nameL.isEmpty then
      (.exitJson true "" "", [])
    else
      match _get_packages h pip with
      | (.error o, app) => (o, app)
      | (.ok (pkgCmd, outP, errP), app) =>
        let out := out ++ outP
        let err := err ++ errP
        let pkgList := (pySplit out "\n").filter (fun pl =>
          !(strStartsWith pl "You are using") && !(strStartsWith pl "You should consider") &&
            pl ≠ "")
        let spec :=
          if strEndsWith pkgCmd " freeze" &&
              (nameL.contains "pip" || nameL.contains "setuptools") then
            let t1 := addSpecial h env1 nameL "setuptools" pkgList out
            let t2 := addSpecial h env1 nameL "pip" t1.1 t1.2.1
            (t2.1, t2.2.1, t1.2.2 ++ t2.2.2)
          else (pkgList, out, [])
        match checkChangedLoop p.state spec.1 packages with
        | .error e => (.pyError e, app ++ spec.2.2)
        | .ok changed => (.exitJson changed spec.2.1 err, app ++ spec.2.2)
  else
    match pipFreezeBefore h pip (optTruthy p.requirements || hasVcs) with
    | (.error o, appF) => (o, appF)
    | (.ok freezeBefore, appF) =>
      let (o, tailApp) := pipRunStep p h venvCreated out err pip cmd freezeBefore
      (o, appF ++ tailApp)

/-- The body of the pip module's `try:` block (everything between the umask
save and the `finally:`). -/
def pipMainTry (p : PipParams) (h : Host) : Outcome × List Entry :=
  let env1 := envAdjust p.virtualenv p.chdir
  if p.state = PipState.latest ∧ p.version ≠ none then
    (.failJson "version is incompatible with state=latest", [])
  else
    let chdir := p.chdir.getD h.tmpdir
    match venvStepRun h (pipVenvArgs p) chdir env1 with
    | (.error o, app0) => (o, app0)
    | (.ok (venvCreated, out, err), app0) =>
      match _get_pip h env1 p.executable with
      | .error o => (o, app0)
      | .ok pip =>
        let cmd0 := pip :: stateArgs p.state
        let nameL := p.name.getD []
        let hasVcs := nameL.any (fun pkg => pkg ≠ "" && isVcsUrl pkg)
        match pipPackagesStep h p nameL with
        | .error o => (o, app0)
        | .ok packages =>
          let extra1 := editableExtras p.editable p.extra_args
          let cmd1 := cmd0 ++ (if optTruthy extra1 then h.shlexSplit (extra1.getD "") else [])
          if !nameL.isEmpty then
            let cmd2 := cmd1 ++ packages.map Package.strRepr
            let (o, app1) :=
              pipRest p h venvCreated out err pip cmd2 packages nameL (optTruthy extra1)
                hasVcs env1
            (o, app0 ++ app1)
          else if optTruthy p.requirements then
            let cmd2 := cmd1 ++ ["-r", p.requirements.getD ""]
            let (o, app1) :=
              pipRest p h venvCreated out err pip cmd2 packages nameL (optTruthy extra1)
                hasVcs env1
            (o, app0 ++ app1)
          else (.exitJson false "" "", app0)

/-- The overall result of one `main()` run: the terminal outcome, the
subprocess trace, and the process-global state (umask, `VIRTUAL_ENV`) after
`main()` finished. -/
structure RunOut where
  outcome : Outcome
  trace : List Entry
  umaskVal : Int
  venvVar : Option String
deriving Repr

/-- `main()` of the pip module, from the umask parameter handling through
the `finally:` that restores the saved umask.  `u0` / `v0` are the process
umask and `VIRTUAL_ENV` value before the run. -/
def pipMainRun (p : PipParams) (h : Host) (u0 : Int) (v0 : Option String) : RunOut :=
  match p.umask with
  | none =>
    let (o, tr) := pipMainTry p h
    ⟨o, tr, u0, v0⟩
  | some u =>
    if u = "" then ⟨.pyError .typeError, [], u0, v0⟩ -- os.umask("") raises TypeError
    else
      match parseOctal u with
      | none => ⟨.failJson "umask must be an octal integer", [], u0, v0⟩
      | some n =>
        -- old_umask = os.umask(n); try: ... finally: os.umask(old_umask)
        let current := n
        let oldUmask : Option Int := some u0
        let (o, tr) := pipMainTry p h
        let final := match oldUmask with | some ou => ou | none => current
        ⟨o, tr, final, v0⟩

/-! ## The pipenv module's `main()` -/

/-- The pipenv module's parameters after `AnsibleModule` parsing. -/
structure PipenvParams where
  path : Option String := none
  include_dev : Bool := false
  fail_when_lockfile_outdated : Bool := true
  virtualenv : Option String := none
  virtualenv_site_packages : Bool := false
  virtualenv_command : String := "virtualenv"
  virtualenv_python : Option String := none
  chdir : Option String := none
  executable : Option String := none
  umask : Option String := none
  checkMode : Bool := false

/-- The virtualenv-related parameters `setup_virtualenv` reads from the
pipenv module. -/
def pipenvVenvArgs (p : PipenvParams) : VenvArgs :=
  ⟨p.checkMode, p.virtualenv_command, p.virtualenv_site_packages, p.virtualenv_python⟩

/-- `has_changes(module, lockfile, pip)`: the source ignores both arguments
and returns `True` unconditionally. -/
def has_changes (lockfile pip : String) : Bool :=
  let _ := lockfile
  let _ := pip
  true

/-- `_get_pipenv(module, env, executable)`: inside a virtualenv the pipenv
binary is `env/bin/pipenv`; a truthy `executable` is returned as-is (the
source tests `os.path.abspath(executable)`, which is always a truthy
string, so the `candidate_name = executable` branch is dead); otherwise
resolve `pipenv` on PATH, failing with the source's
`', '.join('pipenv')` message (a join over the characters of the string). -/
def _get_pipenv (h : Host) (env : Option String) (executable : Option String) :
    Except Outcome String :=
  if optTruthy env then .ok (pathJoin (env.getD "") "bin/pipenv")
  else if optTruthy executable then .ok (executable.getD "")
  else
    match h.getBinPath [] "pipenv" with
    | some pv => .ok pv
    | none =>
      .error (.failJson "Unable to find p, i, p, e, n, v. pipenv needs to be installed.")

/-- The pipenv module's step that installs pipenv itself: when the probe
said pipenv is absent and a virtualenv is in play, run
`pip install pipenv`, failing on a nonzero exit. -/
def pipenvInstallStep (h : Host) (pres : Bool) (env1 : Option String) (out err : String) :
    Except Outcome (Bool × String × String) × List Entry :=
  if !pres && optTruthy env1 then
    let c := Cmd.argv ["pip", "install", "pipenv"]
    let r := h.run c
    let out2 := out ++ r.out
    let err2 := err ++ r.err
    if r.rc ≠ 0 then (.error (failOutcome out2 err2), [(c, r)])
    else (.ok (true, out2, err2), [(c, r)])
  else (.ok (false, out, err), [])

/-- The body of the pipenv module's `try:` block.  `v0` is the current
`VIRTUAL_ENV` environment value; the returned option is its value when
`main()` finishes (the module assigns `os.environ['VIRTUAL_ENV']` before
running `pipenv sync` and never restores it). -/
def pipenvMainTry (p : PipenvParams) (h : Host) (v0 : Option String) :
    Outcome × List Entry × Option String :=
  let env1 := envAdjust p.virtualenv p.chdir
  let chdir := p.chdir.getD h.tmpdir
  match venvStepRun h (pipenvVenvArgs p) chdir env1 with
  | (.error o, app0) => (o, app0, v0)
  | (.ok (venvCreated, out, err), app0) =>
    -- pip = _get_pip(module, env, chdir): chdir is passed as the
    -- `executable` positional argument in the source.
    match _get_pip h env1 (some chdir) with
    | .error o => (o, app0, v0)
    | .ok pip =>
      match _get_packages h pip with
      | (.error o, app1) => (o, app0 ++ app1, v0)
      | (.ok packagesT, app1) =>
        -- packages is the (command, out, err) triple; iterating over it in
        -- _is_present visits the three strings.
        match _is_present (.str "pipenv") [packagesT.1, packagesT.2.1, packagesT.2.2] with
        | .error pe => (.pyError pe, app0 ++ app1, v0)
        | .ok pres =>
          match pipenvInstallStep h pres env1 out err with
          | (.error o, app2) => (o, app0 ++ app1 ++ app2, v0)
          | (.ok (pipenvInstalled, out, err), app2) =>
            match p.path with
            | none => (.pyError .typeError, app0 ++ app1 ++ app2, v0)
            | some pa =>
              if has_changes (pathJoin pa "Pipfile.lock") pip then
                match _get_pipenv h env1 p.executable with
                | .error o => (o, app0 ++ app1 ++ app2, v0)
                | .ok pvBin =>
                  let cmd := [pvBin, "sync"]
                  -- if env: os.environ['VIRTUAL_ENV'] = env
                  let v1 := if optTruthy env1 then env1 else v0
                  let r := h.run (.argv cmd)
                  let app3 := [(Cmd.argv cmd, r)]
                  let ranPipenv := true
                  let out := out ++ r.out
                  let err := err ++ r.err
                  if r.rc ≠ 0 then
                    (failOutcome out err, app0 ++ app1 ++ app2 ++ app3, v1)
                  else
                    (.exitJson (venvCreated || pipenvInstalled || ranPipenv) out err,
                      app0 ++ app1 ++ app2 ++ app3, v1)
              else
                (.exitJson (venvCreated || pipenvInstalled) out err,
                  app0 ++ app1 ++ app2, v0)

/-- `main()` of the pipenv module, with the same umask wrapper as the pip
module. -/
def pipenvMainRun (p : PipenvParams) (h : Host) (u0 : Int) (v0 : Option String) : RunOut :=
  match p.umask with
  | none =>
    let (o, tr, v1) := pipenvMainTry p h v0
    ⟨o, tr, u0, v1⟩
  | some u =>
    if u = "" then ⟨.pyError .typeError, [], u0, v0⟩ -- os.umask("") raises TypeError
    else
      match parseOctal u with
      | none => ⟨.failJson "umask must be an octal integer", [], u0, v0⟩
      | some n =>
        let current := n
        let oldUmask : Option Int := some u0
        let (o, tr, v1) := pipenvMainTry p h v0
        let final := match oldUmask with | some ou => ou | none => current
        ⟨o, tr, final, v1⟩

/-! ## Trace predicates for the failure-reporting theorems -/

/-- The first-try listing command of `_get_packages` (the one nonzero exit
that does not fail the module: `pip freeze` runs next). -/
def isPipListCmd : Cmd → Bool
  | .str s => strEndsWith s " list --format=freeze"
  | _ => false

/-- A `python -c` version probe from `_get_package_info` (a nonzero exit
only makes the probed package count as absent). -/
def isPyCheckCmd : Cmd → Bool
  | .argv [_, c, _] => c = "-c"
  | _ => false

/-- The tolerated uninstall failure: `pip uninstall` exits 1 reporting the
package is not installed. -/
def absentNotInstalled (st : PipState) (e : Entry) : Bool :=
  decide (e.2.rc = 1) && decide (st = PipState.absent) &&
    (pyContains e.2.out "not installed" || pyContains e.2.err "not installed")

/-- An entry the pip module may leave behind on a successful exit: exit
code zero, or one of the three tolerated nonzero cases. -/
def pipOkEntry (st : PipState) (e : Entry) : Bool :=
  decide (e.2.rc = 0) || isPipListCmd e.1 || isPyCheckCmd e.1 || absentNotInstalled st e

/-- An entry the pipenv module may leave behind on a successful exit. -/
def pipenvOkEntry (e : Entry) : Bool :=
  decide (e.2.rc = 0) || isPipListCmd e.1

/-- An install or uninstall invocation: an argv command whose second word
is `install` or `uninstall` (this covers every `state_map` action of the
pip module and the pipenv module's `pip install pipenv`). -/
def isPipActionCmd : Cmd → Bool
  | .argv (_ :: a :: _) => a = "install" || a = "uninstall"
  | _ => false

/-- A `pipenv sync` invocation: an argv command whose second word is
`sync`. -/
def isSyncCmd : Cmd → Bool
  | .argv (_ :: a :: _) => a = "sync"
  | _ => false

/-- Entry-level view of `isPipActionCmd`. -/
def actionEntry (e : Entry) : Bool := isPipActionCmd e.1

/-- Entry-level view of `isSyncCmd`. -/
def syncEntry (e : Entry) : Bool := isSyncCmd e.1

/-- Every entry of a trace except possibly the final one satisfies `ok`: a
command whose failure aborts the run can only be the last one recorded
(nothing runs after a non-tolerated failure, so there is no retry or
recovery). -/
def lastFailOnly (ok : Entry → Bool) : List Entry → Bool
  | [] => true
  | e :: rest => (ok e || rest.isEmpty) && lastFailOnly ok rest

/-! ## Concrete hosts and parameter sets used as test fixtures -/

/-- A whitespace `shlex.split` stand-in for the fixtures (no quoting). -/
def shlexWs (s : String) : List String :=
  ((splitWhenList Char.isWhitespace s.data).map String.mk).filter (fun w => w ≠ "")

/-- A `Requirement.parse` oracle that accepts every name with no version
specs. -/
def reqParseTrivial : String → Option ReqInfo :=
  fun s => some ⟨s, [], some (fun _ => true), s⟩

/-- A host on which every command succeeds, nothing is installed and
`pipenv sync` reports everything already in sync. -/
def hostOk : Host where
  run := fun c =>
    match c with
    | .argv [_, "sync"] => ⟨0, "All dependencies are synced.", ""⟩
    | _ => ⟨0, "", ""⟩
  getBinPath := fun _ n => some ("/usr/bin/" ++ n)
  pathExists := fun _ => true
  isExec := fun _ => true
  tmpdir := "/tmp"
  py3 := true
  sysExecutable := "/usr/bin/python3"
  shlexSplit := shlexWs
  reqParse := reqParseTrivial

/-- Like `hostOk` but `pip uninstall` exits 1 reporting the package is not
installed. -/
def hostUninstallMissing : Host :=
  { hostOk with
    run := fun c =>
      match c with
      | .argv a =>
        if a.contains "uninstall" then ⟨1, "Skipping six as it is not installed.", ""⟩
        else ⟨0, "", ""⟩
      | _ => ⟨0, "", ""⟩ }

/-- Like `hostOk` but no filesystem path exists (so a requested virtualenv
must be created). -/
def hostNoFs : Host := { hostOk with pathExists := fun _ => false }

/-- Like `hostOk` but `pip list --format=freeze` exits 1 while `pip freeze`
succeeds. -/
def hostListFails : Host :=
  { hostOk with
    run := fun c =>
      match c with
      | .str s =>
        if strEndsWith s " list --format=freeze" then ⟨1, "", "unknown option"⟩
        else ⟨0, "six==1.0\n", ""⟩
      | _ => ⟨0, "", ""⟩ }

/-- A concrete plain `Package` for the `_is_present` theorems: name `foo`,
satisfied exactly by version `1.0`. -/
def pkgFoo : Package :=
  { package_name := "foo", plain := true,
    req := some ⟨"foo", [], some (fun v => v = "1.0"), "foo"⟩ }

/-- A concrete plain `Package` with requirement `framework~=1.4` on an old
setuptools (no `specifier` attribute, so the `LooseVersion` fallback
runs). -/
def pkgCompat : Package :=
  { package_name := "framework", plain := true,
    req := some ⟨"framework", [(PipOp.compat, "1.4")], none, "framework~=1.4"⟩ }

/-- Whether an `_is_present` call returned a boolean (did not raise). -/
def presentOk : Except PyErr Bool → Bool
  | .ok _ => true
  | .error _ => false

/-!
# Theorems

From here on the file only states and proves properties of the definitions
above.
-/

/-- C1: the pipenv module reports `changed=true` on a run in which nothing
changed: no virtualenv is requested, nothing is installed, and `pipenv sync`
exits 0 reporting everything already in sync (so the `Pipfile.lock` did not
change either).  `has_changes` returns `True` unconditionally, `pipenv sync`
is always run, and `ran_pipenv` alone forces `changed=true`. -/
theorem pipenv_reports_changed_on_unchanged_run :
    (pipenvMainRun { path := some "/app" } hostOk 18 none).outcome =
      Outcome.exitJson true "All dependencies are synced." "" ∧
    (pipenvMainRun { path := some "/app" } hostOk 18 none).trace =
      [(Cmd.str "/tmp list --format=freeze", ⟨0, "", ""⟩),
       (Cmd.argv ["/usr/bin/pipenv", "sync"],
        ⟨0, "All dependencies are synced.", ""⟩)] := by
  constructor <;> rfl

/-- C3 counterexample: the pipenv module sets `VIRTUAL_ENV` and never
restores it.  Starting from an environment in which `VIRTUAL_ENV` is unset,
after `main()` finishes it is set to the virtualenv path. -/
theorem pipenv_virtual_env_not_restored :
    (pipenvMainRun { path := some "/app", virtualenv := some "/venv" }
        hostOk 18 none).venvVar = some "/venv" ∧
    (pipenvMainRun { path := some "/app", virtualenv := some "/venv" }
        hostOk 18 none).outcome.isExit = true := by
  constructor <;> rfl

/-- C3 amended: the process umask is restored by both modules on every run
(the `finally:` blocks), and the pip module leaves the environment
untouched; the pipenv module's `VIRTUAL_ENV` assignment, however, survives
`main()` (see the counterexample). -/
theorem umask_restored_and_pip_env_untouched :
    (∀ (p : PipParams) (h : Host) (u0 : Int) (v0 : Option String),
      (pipMainRun p h u0 v0).umaskVal = u0 ∧ (pipMainRun p h u0 v0).venvVar = v0) ∧
    (∀ (p : PipenvParams) (h : Host) (u0 : Int) (v0 : Option String),
      (pipenvMainRun p h u0 v0).umaskVal = u0) := by
  constructor
  · intro p h u0 v0
    cases hu : p.umask with
    | none => simp [pipMainRun, hu]
    | some u =>
      by_cases hu0 : u = ""
      · simp [pipMainRun, hu, hu0]
      · cases hpo : parseOctal u <;> simp [pipMainRun, hu, hu0, hpo]
  · intro p h u0 v0
    cases hu : p.umask with
    | none => simp [pipenvMainRun, hu]
    | some u =>
      by_cases hu0 : u = ""
      · simp [pipenvMainRun, hu, hu0]
      · cases hpo : parseOctal u <;> simp [pipenvMainRun, hu, hu0, hpo]

/-- C6 counterexample: on a host where `pip list --format=freeze` exits
nonzero, `_get_packages` runs a second command (`pip freeze`) to obtain the
same information, and succeeds. -/
theorem get_packages_retries_after_failure :
    (hostListFails.run (Cmd.str "pip list --format=freeze")).rc ≠ 0 ∧
    (_get_packages hostListFails "pip").1 = .ok ("pip freeze", "six==1.0\n", "") ∧
    (_get_packages hostListFails "pip").2.length = 2 := by
  refine ⟨by decide, rfl, rfl⟩

/-- The trace of `_get_packages`: the listing command runs exactly once,
and `pip freeze` runs (exactly once, directly after it) precisely when the
listing command exited nonzero; no command is run twice. -/
theorem get_packages_trace_cases (h : Host) (pip : String) :
    ((h.run (Cmd.str (pip ++ " list --format=freeze"))).rc = 0 →
      (_get_packages h pip).2 =
        [(Cmd.str (pip ++ " list --format=freeze"),
          h.run (Cmd.str (pip ++ " list --format=freeze")))]) ∧
    ((h.run (Cmd.str (pip ++ " list --format=freeze"))).rc ≠ 0 →
      (_get_packages h pip).2 =
        [(Cmd.str (pip ++ " list --format=freeze"),
          h.run (Cmd.str (pip ++ " list --format=freeze"))),
         (Cmd.str (pip ++ " freeze"), h.run (Cmd.str (pip ++ " freeze")))]) ∧
    ((_get_packages h pip).2.map Prod.fst).Nodup := by
  have hne : Cmd.str (pip ++ " list --format=freeze") ≠ Cmd.str (pip ++ " freeze") := by
    intro hc
    have hs : pip ++ " list --format=freeze" = pip ++ " freeze" := by
      injection hc
    have hl := congrArg String.length hs
    simp [String.length_append] at hl
    exact absurd hl (by decide)
  refine ⟨fun h0 => ?_, fun h0 => ?_, ?_⟩
  · unfold _get_packages
    simp [h0]
  · unfold _get_packages
    simp [h0]
    split <;> rfl
  · unfold _get_packages
    by_cases h0 : (h.run (Cmd.str (pip ++ " list --format=freeze"))).rc = 0
    · simp [h0]
    · by_cases h1 : (h.run (Cmd.str (pip ++ " freeze"))).rc = 0 <;>
        simp [h0, h1, hne]

/-- In the `LooseVersion` fallback, every operator other than `~=` is
applied with its standard order-theoretic meaning. -/
theorem op_dict_eq_standard_of_ne_compat (o : PipOp) (a b : List LVPart)
    (hno : o ≠ PipOp.compat) : op_dict o a b = specStandardOp o a b := by
  cases o <;> simp_all [op_dict, specStandardOp]

/-- C5 counterexample: the fallback path evaluates `~=` as a mere lower
bound.  The requirement `framework~=1.4` under its standard
compatible-release meaning excludes version `2.0`, but
`Package.is_satisfied_by` accepts it, because `op_dict` maps `~=` to
`operator.ge`. -/
theorem compat_operator_not_standard :
    Package.is_satisfied_by pkgCompat "2.0" = true ∧
    fallbackSatisfied [(PipOp.compat, "1.4")] "2.0" = true ∧
    specSatisfied [(PipOp.compat, "1.4")] "2.0" = false := by
  decide

/-- Helper: without `~=` constraints the fallback conjunction agrees with
the standard one. -/
theorem fallbackSatisfied_eq_specSatisfied (specs : List (PipOp × String)) (v : String)
    (hno : ∀ s ∈ specs, s.1 ≠ PipOp.compat) :
    fallbackSatisfied specs v = specSatisfied specs v := by
  induction specs with
  | nil => rfl
  | cons s t ih =>
    have hs := hno s (List.mem_cons_self s t)
    have ht : ∀ x ∈ t, x.1 ≠ PipOp.compat := fun x hx => hno x (List.mem_cons_of_mem s hx)
    simp only [fallbackSatisfied, specSatisfied, List.all_cons] at ih ⊢
    rw [op_dict_eq_standard_of_ne_compat s.1 _ _ hs, ih ht]

/-- C5 amended: on the pre-`pkg_resources` fallback path (no `specifier`
attribute), `Package.is_satisfied_by` returns true iff the installed
version satisfies every constraint of the specifier over `LooseVersion`
values under the operator's standard meaning, provided no constraint uses
`~=`; the `~=` operator is instead evaluated as plain `>=` (see the
counterexample). -/
theorem fallback_satisfied_standard (name : String) (r : ReqInfo) (v : String)
    (hc : r.containsF = none) (hno : ∀ s ∈ r.specs, s.1 ≠ PipOp.compat) :
    Package.is_satisfied_by ⟨name, true, some r⟩ v = specSatisfied r.specs v := by
  have hfb : Package.is_satisfied_by ⟨name, true, some r⟩ v = fallbackSatisfied r.specs v := by
    simp [Package.is_satisfied_by, hc]
  rw [hfb]
  exact fallbackSatisfied_eq_specSatisfied r.specs v hno

/-- C5 amended, instantiated: a concrete `>=` requirement evaluated through
the fallback agrees with the standard meaning. -/
theorem fallback_satisfied_standard_witness :
    Package.is_satisfied_by ⟨"foo", true, some ⟨"foo", [(PipOp.ge, "1.0")], none, "foo>=1.0"⟩⟩
        "2.0" =
      specSatisfied [(PipOp.ge, "1.0")] "2.0" :=
  fallback_satisfied_standard "foo" ⟨"foo", [(PipOp.ge, "1.0")], none, "foo>=1.0"⟩ "2.0" rfl
    (by decide)

/-- Helper for C8: called with a raw string as `req`, `_is_present` raises
on any element list containing `==` somewhere: a `ValueError` when the first
such element splits into three or more pieces, an `AttributeError`
otherwise. -/
theorem is_present_str_raises (s : String) (l : List String)
    (hx : l.any (fun y => pyContains y "==") = true) :
    _is_present (ReqArg.str s) l = .error PyErr.valueError ∨
    _is_present (ReqArg.str s) l = .error PyErr.attributeError := by
  induction l with
  | nil => simp at hx
  | cons x rest ih =>
    by_cases hc : pyContains x "==" = true
    · cases hsp : pySplit x "==" with
      | nil => left; simp [_is_present, hc, hsp]
      | cons a t =>
        cases t with
        | nil => left; simp [_is_present, hc, hsp]
        | cons b t2 =>
          cases t2 with
          | nil => right; simp [_is_present, hc, hsp]
          | cons c t3 => left; simp [_is_present, hc, hsp]
    · have hx2 : rest.any (fun y => pyContains y "==") = true := by
        simp only [List.any_cons, Bool.or_eq_true] at hx
        rcases hx with h | h
        · exact absurd h hc
        · exact h
      have hstep : _is_present (ReqArg.str s) (x :: rest) = _is_present (ReqArg.str s) rest := by
        simp [_is_present, hc]
      rw [hstep]
      exact ih hx2

/-- C8: the pipenv module calls `_is_present(module, 'pipenv', packages)`
with the raw string `'pipenv'` and the `(command, out, err)` triple from
`_get_packages`; whenever any of the three strings contains `==` (i.e. at
least one installed package shows in the captured pip output), the check
raises a `ValueError` or an `AttributeError` instead of returning a
boolean. -/
theorem pipenv_is_present_check_raises (c o e : String)
    (hx : (pyContains c "==" || pyContains o "==" || pyContains e "==") = true) :
    _is_present (ReqArg.str "pipenv") [c, o, e] = .error PyErr.valueError ∨
    _is_present (ReqArg.str "pipenv") [c, o, e] = .error PyErr.attributeError := by
  apply is_present_str_raises
  simp only [List.any_cons, List.any_nil, Bool.or_false]
  simpa [Bool.or_assoc] using hx

/-- C8, instantiated on a captured `pip list --format=freeze` output with
two installed packages. -/
theorem pipenv_is_present_check_raises_witness :
    _is_present (ReqArg.str "pipenv")
        ["pip list --format=freeze", "setuptools==40.0.0\npip==19.0.3", ""] =
      .error PyErr.valueError ∨
    _is_present (ReqArg.str "pipenv")
        ["pip list --format=freeze", "setuptools==40.0.0\npip==19.0.3", ""] =
      .error PyErr.attributeError :=
  pipenv_is_present_check_raises "pip list --format=freeze"
    "setuptools==40.0.0\npip==19.0.3" "" (by decide)

/-- C9: `_is_present` with a `Package` requirement returns a boolean
whenever every element splits on `==` into at most two pieces, and an
element that splits into three or more pieces makes the two-way unpack
raise `ValueError` (for any requirement argument) as soon as it is
reached. -/
theorem is_present_totality :
    (∀ (P : Package) (l : List String), (∀ s ∈ l, (pySplit s "==").length ≤ 2) →
      presentOk (_is_present (ReqArg.pkg P) l) = true) ∧
    (∀ (req : ReqArg) (s : String) (rest : List String), 3 ≤ (pySplit s "==").length →
      _is_present req (s :: rest) = .error PyErr.valueError) := by
  constructor
  · intro P l hb
    induction l with
    | nil => rfl
    | cons x rest ih =>
      have hrest : ∀ s ∈ rest, (pySplit s "==").length ≤ 2 := fun s hs =>
        hb s (List.mem_cons_of_mem x hs)
      by_cases hc : pyContains x "==" = true
      · have h2 : (pySplit x "==").length = 2 := by
          have hle := hb x (List.mem_cons_self x rest)
          have hge : 2 ≤ (pySplit x "==").length := by
            simpa [pyContains] using hc
          omega
        obtain ⟨a, b, hab⟩ := List.length_eq_two.mp h2
        by_cases hname : pyLower a = P.package_name
        · by_cases hsat : P.is_satisfied_by b = true
          · simp [_is_present, hc, hab, hname, hsat, presentOk]
          · have hstep : _is_present (ReqArg.pkg P) (x :: rest) =
                _is_present (ReqArg.pkg P) rest := by
              simp [_is_present, hc, hab, hname, hsat]
            rw [hstep]
            exact ih hrest
        · have hstep : _is_present (ReqArg.pkg P) (x :: rest) =
              _is_present (ReqArg.pkg P) rest := by
            simp [_is_present, hc, hab, hname]
          rw [hstep]
          exact ih hrest
      · have hstep : _is_present (ReqArg.pkg P) (x :: rest) =
            _is_present (ReqArg.pkg P) rest := by
          simp [_is_present, hc]
        rw [hstep]
        exact ih hrest
  · intro req s rest h3
    have hc : pyContains s "==" = true := by
      simp only [pyContains, decide_eq_true_eq]
      omega
    rcases hsp : pySplit s "==" with _ | ⟨a, _ | ⟨b, _ | ⟨c, t⟩⟩⟩
    · rw [hsp] at h3; simp at h3
    · rw [hsp] at h3; simp at h3
    · rw [hsp] at h3; simp at h3
    · simp [_is_present, hc, hsp]

/-- C9, instantiated: a well-formed listing gives a boolean, and a line
with two `==` raises `ValueError`. -/
theorem is_present_totality_witness :
    presentOk (_is_present (ReqArg.pkg pkgFoo) ["six==1.0", "zlib"]) = true ∧
    _is_present (ReqArg.pkg pkgFoo) ["a==b==c"] = .error PyErr.valueError :=
  ⟨is_present_totality.1 pkgFoo ["six==1.0", "zlib"] (by decide),
   is_present_totality.2 (ReqArg.pkg pkgFoo) "a==b==c" [] (by decide)⟩

/-- C4 counterexample: the claimed iff fails without a well-formedness
precondition.  The listing `["a==b==c", "foo==1.0"]` has an element that
contains `==` and splits into a matching name and an accepted version, so
the claim says `_is_present` returns true; instead the earlier line with
two `==` makes it raise `ValueError` and it returns nothing at all. -/
theorem is_present_raises_despite_match :
    _is_present (ReqArg.pkg pkgFoo) ["a==b==c", "foo==1.0"] = .error PyErr.valueError ∧
    "foo==1.0" ∈ ["a==b==c", "foo==1.0"] ∧
    pySplit "foo==1.0" "==" = ["foo", "1.0"] ∧
    pyLower "foo" = pkgFoo.package_name ∧
    pkgFoo.is_satisfied_by "1.0" = true := by
  refine ⟨rfl, by decide, rfl, rfl, rfl⟩

/-- C4 amended: provided every element of `installed_pkgs` splits on `==`
into at most two pieces (otherwise `_is_present` raises, see C9),
`_is_present` returns true iff some element contains `==` and splits into a
name whose lowercase form equals the requirement's `package_name` and a
version accepted by `is_satisfied_by`; elements without `==` are skipped
and never affect the result. -/
theorem is_present_true_iff (P : Package) (l : List String)
    (hb : ∀ s ∈ l, (pySplit s "==").length ≤ 2) :
    _is_present (ReqArg.pkg P) l = .ok true ↔
      ∃ s ∈ l, ∃ a b, pySplit s "==" = [a, b] ∧ pyLower a = P.package_name ∧
        P.is_satisfied_by b = true := by
  induction l with
  | nil => simp [_is_present]
  | cons x rest ih =>
    have hrest : ∀ s ∈ rest, (pySplit s "==").length ≤ 2 := fun s hs =>
      hb s (List.mem_cons_of_mem x hs)
    have ihr := ih hrest
    by_cases hc : pyContains x "==" = true
    · have h2 : (pySplit x "==").length = 2 := by
        have hle := hb x (List.mem_cons_self x rest)
        have hge : 2 ≤ (pySplit x "==").length := by simpa [pyContains] using hc
        omega
      obtain ⟨a, b, hab⟩ := List.length_eq_two.mp h2
      have hxcase : ∀ a2 b2, pySplit x "==" = [a2, b2] → a2 = a ∧ b2 = b := by
        intro a2 b2 h
        rw [hab] at h
        exact ⟨(List.cons.injEq _ _ _ _ ▸ h).1.symm, by
          have := (List.cons.injEq _ _ _ _ ▸ h).2
          simpa using this.symm⟩
      by_cases hname : pyLower a = P.package_name
      · by_cases hsat : P.is_satisfied_by b = true
        · have hlhs : _is_present (ReqArg.pkg P) (x :: rest) = .ok true := by
            simp [_is_present, hc, hab, hname, hsat]
          simp only [hlhs]
          constructor
          · intro _
            exact ⟨x, List.mem_cons_self x rest, a, b, hab, hname, hsat⟩
          · intro _
            trivial
        · have hstep : _is_present (ReqArg.pkg P) (x :: rest) =
              _is_present (ReqArg.pkg P) rest := by
            simp [_is_present, hc, hab, hname, hsat]
          rw [hstep, ihr]
          constructor
          · rintro ⟨s, hs, a2, b2, hsp, hn2, hs2⟩
            exact ⟨s, List.mem_cons_of_mem x hs, a2, b2, hsp, hn2, hs2⟩
          · rintro ⟨s, hs, a2, b2, hsp, hn2, hs2⟩
            rcases List.mem_cons.mp hs with rfl | hs
            · obtain ⟨rfl, rfl⟩ := hxcase a2 b2 hsp
              exact absurd hs2 hsat
            · exact ⟨s, hs, a2, b2, hsp, hn2, hs2⟩
      · have hstep : _is_present (ReqArg.pkg P) (x :: rest) =
            _is_present (ReqArg.pkg P) rest := by
          simp [_is_present, hc, hab, hname]
        rw [hstep, ihr]
        constructor
        · rintro ⟨s, hs, a2, b2, hsp, hn2, hs2⟩
          exact ⟨s, List.mem_cons_of_mem x hs, a2, b2, hsp, hn2, hs2⟩
        · rintro ⟨s, hs, a2, b2, hsp, hn2, hs2⟩
          rcases List.mem_cons.mp hs with rfl | hs
          · obtain ⟨rfl, rfl⟩ := hxcase a2 b2 hsp
            exact absurd hn2 hname
          · exact ⟨s, hs, a2, b2, hsp, hn2, hs2⟩
    · have hstep : _is_present (ReqArg.pkg P) (x :: rest) =
          _is_present (ReqArg.pkg P) rest := by
        simp [_is_present, hc]
      rw [hstep, ihr]
      have hshort : ¬(2 ≤ (pySplit x "==").length) := by
        simpa [pyContains] using hc
      constructor
      · rintro ⟨s, hs, a2, b2, hsp, hn2, hs2⟩
        exact ⟨s, List.mem_cons_of_mem x hs, a2, b2, hsp, hn2, hs2⟩
      · rintro ⟨s, hs, a2, b2, hsp, hn2, hs2⟩
        rcases List.mem_cons.mp hs with rfl | hs
        · rw [hsp] at hshort
          simp at hshort
        · exact ⟨s, hs, a2, b2, hsp, hn2, hs2⟩

/-- C4 amended, instantiated: an entry without `==` is skipped and a
matching `name==version` entry makes `_is_present` return true. -/
theorem is_present_true_iff_witness :
    _is_present (ReqArg.pkg pkgFoo) ["zlib", "foo==1.0"] = .ok true :=
  (is_present_true_iff pkgFoo ["zlib", "foo==1.0"] (by decide)).mpr
    ⟨"foo==1.0", by decide, "foo", "1.0", by decide, by decide, by decide⟩

/-- `recoverLoop` is the join of the groups `buildGroups` collects. -/
theorem recoverLoop_eq_buildGroups (tmp : List String) :
    ∀ (parts acc : List String),
      recoverLoop tmp parts acc = acc ++ (buildGroups tmp parts).map (pyJoin ",") := by
  induction tmp with
  | nil => intro parts acc; simp [recoverLoop, buildGroups]
  | cons n rest ih =>
    intro parts acc
    by_cases h1 : _is_package_name n = true
    · by_cases h2 : parts = []
      · subst h2
        have hcond : ¬(_is_package_name n = true ∧ ([] : List String) ≠ []) := by
          simp
        simp only [recoverLoop, buildGroups, h1, if_pos h1, if_neg hcond]
        simp only [ne_eq, not_true_eq_false, if_neg, ite_false]
        rw [ih]
        simp
      · have hcond : _is_package_name n = true ∧ parts ≠ [] := ⟨h1, h2⟩
        simp only [recoverLoop, buildGroups, if_pos h1, if_pos hcond, if_pos h2]
        rw [ih]
        simp
    · have hcond : ¬(_is_package_name n = true ∧ parts ≠ []) := fun hh => h1 hh.1
      simp only [recoverLoop, buildGroups, if_neg h1, if_neg hcond]
      exact ih _ _

/-- The groups of `buildGroups` flatten back to the input. -/
theorem buildGroups_flatten (tmp : List String) :
    ∀ parts : List String, (buildGroups tmp parts).flatten = parts ++ tmp := by
  induction tmp with
  | nil => intro parts; simp [buildGroups]
  | cons n rest ih =>
    intro parts
    by_cases hcond : _is_package_name n = true ∧ parts ≠ []
    · simp only [buildGroups, if_pos hcond, List.flatten_cons, ih]
      simp
    · simp only [buildGroups, if_neg hcond, ih]
      simp

/-- No group of `buildGroups` is empty once there is any input. -/
theorem buildGroups_ne_nil (tmp : List String) :
    ∀ parts : List String, parts ≠ [] ∨ tmp ≠ [] →
      ∀ g ∈ buildGroups tmp parts, g ≠ [] := by
  induction tmp with
  | nil =>
    intro parts hp g hg
    rcases hp with hp | hp
    · simp only [buildGroups, List.mem_singleton] at hg
      subst hg; exact hp
    · exact absurd rfl hp
  | cons n rest ih =>
    intro parts _ g hg
    by_cases hcond : _is_package_name n = true ∧ parts ≠ []
    · simp only [buildGroups, if_pos hcond, List.mem_cons] at hg
      rcases hg with rfl | hg
      · exact hcond.2
      · exact ih [n] (Or.inl (by simp)) g hg
    · simp only [buildGroups, if_neg hcond] at hg
      exact ih (parts ++ [n]) (Or.inl (by simp)) g hg

/-- When the seed group starts with a package name, every group starts with
a package name. -/
theorem buildGroups_heads (tmp : List String) :
    ∀ (ph : String) (pt : List String), _is_package_name ph = true →
      ∀ g ∈ buildGroups tmp (ph :: pt),
        ∃ gh gt, g = gh :: gt ∧ _is_package_name gh = true := by
  induction tmp with
  | nil =>
    intro ph pt hph g hg
    simp only [buildGroups, List.mem_singleton] at hg
    exact ⟨ph, pt, hg, hph⟩
  | cons n rest ih =>
    intro ph pt hph g hg
    by_cases h1 : _is_package_name n = true
    · have hcond : _is_package_name n = true ∧ (ph :: pt) ≠ [] := ⟨h1, by simp⟩
      simp only [buildGroups, if_pos hcond, List.mem_cons] at hg
      rcases hg with rfl | hg
      · exact ⟨ph, pt, rfl, hph⟩
      · exact ih n [] h1 g hg
    · have hcond : ¬(_is_package_name n = true ∧ (ph :: pt) ≠ []) := fun hh => h1 hh.1
      simp only [buildGroups, if_neg hcond, List.cons_append] at hg
      exact ih ph (pt ++ [n]) hph g hg

/-- Every group after the first starts with a package name. -/
theorem buildGroups_tail_heads (tmp : List String) :
    ∀ parts : List String, ∀ g ∈ (buildGroups tmp parts).tail,
      ∃ gh gt, g = gh :: gt ∧ _is_package_name gh = true := by
  induction tmp with
  | nil => intro parts g hg; simp [buildGroups] at hg
  | cons n rest ih =>
    intro parts g hg
    by_cases hcond : _is_package_name n = true ∧ parts ≠ []
    · simp only [buildGroups, if_pos hcond, List.tail_cons] at hg
      exact buildGroups_heads rest n [] hcond.1 g hg
    · simp only [buildGroups, if_neg hcond] at hg
      exact ih (parts ++ [n]) g hg

/-- Joining a concatenation of two nonempty lists. -/
theorem pyJoin_append (b : List String) (hb : b ≠ []) :
    ∀ a : List String, a ≠ [] →
      pyJoin "," (a ++ b) = pyJoin "," a ++ "," ++ pyJoin "," b := by
  intro a
  induction a with
  | nil => intro h; exact absurd rfl h
  | cons x a2 ih =>
    intro _
    cases a2 with
    | nil =>
      cases b with
      | nil => exact absurd rfl hb
      | cons y t => simp [pyJoin]
    | cons x2 t2 =>
      have hih := ih (by simp)
      rw [List.cons_append] at hih
      show x ++ "," ++ pyJoin "," (x2 :: (t2 ++ b)) =
        x ++ "," ++ pyJoin "," (x2 :: t2) ++ "," ++ pyJoin "," b
      rw [hih]
      simp [String.append_assoc]

/-- Joining joined groups is joining the flattened groups, for nonempty
groups. -/
theorem pyJoin_map_flatten (gs : List (List String)) (hne : ∀ g ∈ gs, g ≠ []) :
    pyJoin "," (gs.map (pyJoin ",")) = pyJoin "," gs.flatten := by
  induction gs with
  | nil => rfl
  | cons g gs2 ih =>
    cases gs2 with
    | nil => simp [pyJoin]
    | cons g2 t =>
      have hg : g ≠ [] := hne g (List.mem_cons_self g (g2 :: t))
      have hg2 : g2 ≠ [] := hne g2 (by simp)
      have hne2 : ∀ x ∈ g2 :: t, x ≠ [] := fun x hx => hne x (List.mem_cons_of_mem g hx)
      have hflne : (g2 :: t).flatten ≠ [] := by
        simp only [List.flatten_cons]
        intro hcontr
        exact hg2 (List.append_eq_nil.mp hcontr).1
      calc pyJoin "," ((g :: g2 :: t).map (pyJoin ","))
          = pyJoin "," g ++ "," ++ pyJoin "," ((g2 :: t).map (pyJoin ",")) := rfl
        _ = pyJoin "," g ++ "," ++ pyJoin "," (g2 :: t).flatten := by rw [ih hne2]
        _ = pyJoin "," (g ++ (g2 :: t).flatten) := (pyJoin_append _ hflne g hg).symm
        _ = pyJoin "," ((g :: g2 :: t).flatten) := by simp [List.flatten_cons]

/-- `pySplit` never returns the empty list. -/
theorem splitFuel_ne_nil (sep : List Char) :
    ∀ (fuel : Nat) (l : List Char), splitFuel sep fuel l ≠ [] := by
  intro fuel
  induction fuel with
  | zero => intro l; simp [splitFuel]
  | succ n ih =>
    intro l
    cases l with
    | nil => simp [splitFuel]
    | cons c rest =>
      simp only [splitFuel]
      by_cases hp : sep.isPrefixOf (c :: rest) = true
      · simp [hp]
      · simp only [hp, if_false, Bool.false_eq_true]
        cases h : splitFuel sep n rest <;> simp

/-- `pySplit` never returns the empty list (string level). -/
theorem pySplit_ne_nil (s sep : String) : pySplit s sep ≠ [] := by
  unfold pySplit
  by_cases hsep : sep = ""
  · simp [hsep]
  · simp only [hsep, if_neg hsep, ite_false]
    intro hc
    exact splitFuel_ne_nil sep.data s.data.length s.data (List.map_eq_nil_iff.mp hc)

/-- C10: `_recover_package_name` preserves all comma-separated tokens in
order (joining its result with commas equals joining the flattened
comma-split of the input), and every element of the result after the first
begins with a token of the flattened split that is a package name, so
version-specifier fragments always attach to the nearest preceding package
name. -/
theorem recover_package_name_props (names : List String)
    (hne : names ≠ []) (hnn : ∀ n ∈ names, n ≠ "") :
    pyJoin "," (_recover_package_name names) = pyJoin "," (flatSplit names) ∧
    ∀ r ∈ (_recover_package_name names).tail,
      ∃ g0 rest, g0 ∈ flatSplit names ∧ _is_package_name g0 = true ∧
        (r = g0 ∨ r = g0 ++ "," ++ rest) := by
  have _ := hnn
  have htmp : flatSplit names ≠ [] := by
    cases names with
    | nil => exact absurd rfl hne
    | cons n t =>
      simp only [flatSplit, List.map_cons, List.flatten_cons]
      intro hc
      exact pySplit_ne_nil n "," (List.append_eq_nil.mp hc).1
  have hgr : _recover_package_name names =
      (buildGroups (flatSplit names) []).map (pyJoin ",") := by
    unfold _recover_package_name
    rw [recoverLoop_eq_buildGroups]
    simp
  have hnonempty : ∀ g ∈ buildGroups (flatSplit names) [], g ≠ [] :=
    buildGroups_ne_nil (flatSplit names) [] (Or.inr htmp)
  constructor
  · rw [hgr, pyJoin_map_flatten _ hnonempty, buildGroups_flatten]
    simp
  · intro r hr
    have htm : ∀ l : List (List String),
        (l.map (pyJoin ",")).tail = l.tail.map (pyJoin ",") := fun l => by
      cases l <;> rfl
    rw [hgr, htm] at hr
    obtain ⟨g, hg, hrg⟩ := List.mem_map.mp hr
    obtain ⟨gh, gt, hggt, hpkg⟩ := buildGroups_tail_heads (flatSplit names) [] g hg
    have hsub : g ∈ buildGroups (flatSplit names) [] :=
      (List.tail_sublist _).subset hg
    have hmem : gh ∈ flatSplit names := by
      have hm : gh ∈ (buildGroups (flatSplit names) []).flatten :=
        List.mem_flatten.mpr ⟨g, hsub, by rw [hggt]; exact List.mem_cons_self gh gt⟩
      rw [buildGroups_flatten] at hm
      simpa using hm
    subst hrg
    subst hggt
    cases gt with
    | nil => exact ⟨gh, "", hmem, hpkg, Or.inl rfl⟩
    | cons y t => exact ⟨gh, pyJoin "," (y :: t), hmem, hpkg, Or.inr rfl⟩

/-- C10, instantiated: the doc-string example keeps all tokens in order. -/
theorem recover_package_name_props_witness :
    pyJoin "," (_recover_package_name ["django>1.11.1", "<1.11.3", "ipaddress"]) =
      pyJoin "," (flatSplit ["django>1.11.1", "<1.11.3", "ipaddress"]) :=
  (recover_package_name_props ["django>1.11.1", "<1.11.3", "ipaddress"]
    (by decide) (by decide)).1

/-! ## Phase lemmas for the two `main()` flows -/

/-- Appending to a string keeps its suffix. -/
theorem strEndsWith_append (a b : String) : strEndsWith (a ++ b) b = true := by
  simp only [strEndsWith, String.data_append]
  have : b.data <:+ a.data ++ b.data := List.suffix_append a.data b.data
  exact List.isSuffixOf_iff_suffix.mpr this

/-- `_get_cmd_options` runs exactly the `--help` command; a result means it
exited 0, a failure is a `fail_json`. -/
theorem get_cmd_options_spec (h : Host) (c : String) :
    (_get_cmd_options h c).2 =
      [(Cmd.str (c ++ " --help"), h.run (Cmd.str (c ++ " --help")))] ∧
    (∀ opts, (_get_cmd_options h c).1 = .ok opts →
      (h.run (Cmd.str (c ++ " --help"))).rc = 0) ∧
    (∀ o, (_get_cmd_options h c).1 = .error o → o.isExit = false) := by
  unfold _get_cmd_options
  by_cases h0 : (h.run (Cmd.str (c ++ " --help"))).rc = 0 <;>
    simp [h0, Outcome.isExit]

/-- `svResolveCmd` only fails with `fail_json`. -/
theorem svResolveCmd_error (h : Host) (va : VenvArgs) :
    ∀ o, svResolveCmd h va = .error o → o.isExit = false := by
  intro o ho
  unfold svResolveCmd at ho
  split at ho
  · split at ho
    · exact absurd ho (by simp)
    · rw [show o = Outcome.failJson ("Failed to find required executable " ++
        va.virtualenv_command) from by injection ho with h2; exact h2.symm]
      rfl
  · exact absurd ho (by simp)

/-- `svPythonStep` only fails with `fail_json`. -/
theorem svPythonStep_error (h : Host) (va : VenvArgs) (cmd2 : String) :
    ∀ o, svPythonStep h va cmd2 = .error o → o.isExit = false := by
  intro o ho
  unfold svPythonStep at ho
  split at ho
  · exact absurd ho (by simp)
  · split at ho
    · rw [show o = Outcome.failJson ("virtualenv_python should not be used when" ++
        " using the venv module or pyvenv as virtualenv_command") from by
        injection ho with h2; exact h2.symm]
      rfl
    · exact absurd ho (by simp)

/-- `svSiteStep`: its entries are shell strings, a result means they all
exited 0, a failure is a `fail_json`. -/
theorem svSiteStep_spec (h : Host) (va : VenvArgs) (cmd1 : String) :
    (svSiteStep h va cmd1).2.all strCmdOnly = true ∧
    (∀ v, (svSiteStep h va cmd1).1 = .ok v →
      (svSiteStep h va cmd1).2.all (fun e => decide (e.2.rc = 0)) = true) ∧
    (∀ o, (svSiteStep h va cmd1).1 = .error o → o.isExit = false) := by
  obtain ⟨hE, hOk, hErr⟩ := get_cmd_options_spec h cmd1
  unfold svSiteStep
  by_cases hsp : va.sitePackages = true
  · simp [hsp]
  · simp only [hsp, Bool.false_eq_true, if_false, ite_false]
    cases hg : _get_cmd_options h cmd1 with
    | mk r app =>
      cases r with
      | error o =>
        refine ⟨?_, ?_, ?_⟩
        · rw [show app = (_get_cmd_options h cmd1).2 from by rw [hg]] at *
          rw [hE]
          simp [strCmdOnly]
        · intro v hv; exact absurd hv (by simp)
        · intro o2 ho2
          have : o2 = o := by injection ho2 with h2; exact h2.symm
          subst this
          exact hErr o2 (by rw [hg])
      | ok opts =>
        refine ⟨?_, ?_, ?_⟩
        · rw [show app = (_get_cmd_options h cmd1).2 from by rw [hg]] at *
          rw [hE]
          simp [strCmdOnly]
        · intro v _
          rw [show app = (_get_cmd_options h cmd1).2 from by rw [hg]] at *
          rw [hE]
          simp only [List.all_cons, List.all_nil, Bool.and_true]
          exact decide_eq_true (hOk opts (by rw [hg]))
        · intro o ho; exact absurd ho (by simp)

/-- `setup_virtualenv`: its entries are shell strings; a result means they
all exited 0; outside check mode a failure is never an `exit_json`; in check
mode it exits immediately reporting a change. -/
theorem setup_virtualenv_spec (h : Host) (va : VenvArgs) (env chdir out err : String) :
    (setup_virtualenv h va env chdir out err).2.all strCmdOnly = true ∧
    (∀ v, (setup_virtualenv h va env chdir out err).1 = .ok v →
      (setup_virtualenv h va env chdir out err).2.all (fun e => decide (e.2.rc = 0)) = true) ∧
    (va.checkMode = false →
      ∀ o, (setup_virtualenv h va env chdir out err).1 = .error o → o.isExit = false) ∧
    (va.checkMode = true →
      setup_virtualenv h va env chdir out err = (.error (.exitJson true "" ""), [])) := by
  unfold setup_virtualenv
  by_cases hcm : va.checkMode = true
  · simp [hcm]
  · have hcmf : va.checkMode = false := by
      cases hc2 : va.checkMode
      · rfl
      · exact absurd hc2 hcm
    simp only [hcm, if_false, hcmf, Bool.false_eq_true, ite_false]
    cases hres : svResolveCmd h va with
    | error o =>
      try dsimp only
      refine ⟨rfl, by simp, fun _ o2 ho2 => ?_, by simp⟩
      have : o2 = o := by injection ho2 with h2; exact h2.symm
      subst this
      exact svResolveCmd_error h va o2 hres
    | ok cmd1 =>
      try dsimp only
      obtain ⟨hsE, hsOk, hsErr⟩ := svSiteStep_spec h va cmd1
      cases hsite : svSiteStep h va cmd1 with
      | mk r app =>
        rw [hsite] at hsE hsOk hsErr
        cases r with
        | error o =>
          try dsimp only
          refine ⟨hsE, by simp, fun _ o2 ho2 => ?_, by simp⟩
          have : o2 = o := by injection ho2 with h2; exact h2.symm
          subst this
          exact hsErr o2 rfl
        | ok cmd2 =>
          try dsimp only
          cases hpy : svPythonStep h va cmd2 with
          | error o =>
            try dsimp only
            refine ⟨hsE, by simp, fun _ o2 ho2 => ?_, by simp⟩
            have : o2 = o := by injection ho2 with h2; exact h2.symm
            subst this
            exact svPythonStep_error h va cmd2 o2 hpy
          | ok cmd3 =>
            try dsimp only
            by_cases hrc : (h.run (Cmd.str (cmd3 ++ " " ++ env))).rc = 0
            · refine ⟨?_, fun v _ => ?_, fun _ o2 ho2 => ?_, by simp⟩
              · simp [hrc, List.all_append, hsE, strCmdOnly]
              · simp only [hrc, ne_eq, not_true_eq_false, if_false, ite_false]
                simp [List.all_append, hrc, hsOk cmd2 rfl]
              · simp [hrc] at ho2
            · refine ⟨?_, fun v hv => ?_, fun _ o2 ho2 => ?_, by simp⟩
              · simp [hrc, List.all_append, hsE, strCmdOnly]
              · simp [hrc] at hv
              · simp only [hrc, ne_eq, if_true, ite_true] at ho2
                have : o2 = failOutcome (out ++ (h.run (Cmd.str (cmd3 ++ " " ++ env))).out)
                    (err ++ (h.run (Cmd.str (cmd3 ++ " " ++ env))).err) := by
                  injection ho2 with h2; exact h2.symm
                subst this
                rfl

/-- `venvStepRun` inherits the `setup_virtualenv` properties; when no
virtualenv is to be created it runs nothing. -/
theorem venvStepRun_spec (h : Host) (va : VenvArgs) (chdir : String) (env1 : Option String) :
    (venvStepRun h va chdir env1).2.all strCmdOnly = true ∧
    (∀ v, (venvStepRun h va chdir env1).1 = .ok v →
      (venvStepRun h va chdir env1).2.all (fun e => decide (e.2.rc = 0)) = true) ∧
    (va.checkMode = false →
      ∀ o, (venvStepRun h va chdir env1).1 = .error o → o.isExit = false) ∧
    (∀ o, (venvStepRun h va chdir env1).1 = .error o →
      o.isExit = true → venvStepRun h va chdir env1 = (.error (.exitJson true "" ""), [])) := by
  unfold venvStepRun
  by_cases hneed : needsVenv h env1 = true
  · simp only [hneed, if_true, ite_true]
    obtain ⟨hE, hOk, hErr, hCm⟩ := setup_virtualenv_spec h va (env1.getD "") chdir "" ""
    cases hsv : setup_virtualenv h va (env1.getD "") chdir "" "" with
    | mk r app =>
      rw [hsv] at hE hOk hErr hCm
      cases r with
      | error o =>
        refine ⟨hE, by simp, fun hcmf o2 ho2 => ?_, fun o2 ho2 hexit => ?_⟩
        · have : o2 = o := by injection ho2 with h2; exact h2.symm
          subst this
          exact hErr hcmf o2 rfl
        · have ho : o2 = o := by injection ho2 with h2; exact h2.symm
          subst ho
          by_cases hcm : va.checkMode = true
          · have heq := hCm hcm
            have happ : app = [] := congrArg Prod.snd heq
            have ho2e : (Except.error o2 : Except Outcome (String × String)) =
                Except.error (Outcome.exitJson true "" "") := congrArg Prod.fst heq
            have ho2eq : o2 = Outcome.exitJson true "" "" := by
              injection ho2e
            subst happ
            subst ho2eq
            try dsimp only
          · have hcmf : va.checkMode = false := by
              cases hc2 : va.checkMode
              · rfl
              · exact absurd hc2 hcm
            have := hErr hcmf o2 rfl
            rw [hexit] at this
            exact absurd this (by simp)
      | ok oe =>
        refine ⟨hE, fun v hv => hOk oe rfl, fun _ o2 ho2 => absurd ho2 (by simp),
          fun o2 ho2 => absurd ho2 (by simp)⟩
  · simp [hneed]

/-- `_get_pip` only fails with `fail_json`. -/
theorem pipSearch_error (h : Host) (env : Option String) (cands : List String) :
    ∀ o, pipSearch h env cands = .error o → o.isExit = false := by
  intro o ho
  unfold pipSearch at ho
  cases env with
  | none =>
    dsimp only at ho
    split at ho
    · exact absurd ho (by simp)
    · rw [show o = _ from by injection ho with h2; exact h2.symm]
      rfl
  | some envd =>
    dsimp only at ho
    split at ho
    · exact absurd ho (by simp)
    · rw [show o = _ from by injection ho with h2; exact h2.symm]
      rfl

/-- `_get_pip` only fails with `fail_json`. -/
theorem get_pip_error (h : Host) (env executable : Option String) :
    ∀ o, _get_pip h env executable = .error o → o.isExit = false := by
  intro o ho
  unfold _get_pip at ho
  dsimp only at ho
  cases executable with
  | some e =>
    by_cases habs : strStartsWith e "/" = true
    · simp [habs] at ho
    · simp only [habs, Bool.false_eq_true, if_false, ite_false] at ho
      exact pipSearch_error h env [e] o ho
  | none => exact pipSearch_error h env _ o ho

/-- `_get_packages`: its entries are shell strings; a result means every
entry exited 0 except possibly the first-try listing command; a failure is
a `fail_json`. -/
theorem get_packages_spec (h : Host) (pip : String) :
    (_get_packages h pip).2.all strCmdOnly = true ∧
    (∀ v, (_get_packages h pip).1 = .ok v →
      (_get_packages h pip).2.all
        (fun e => decide (e.2.rc = 0) || isPipListCmd e.1) = true) ∧
    (∀ o, (_get_packages h pip).1 = .error o → o.isExit = false) := by
  unfold _get_packages
  by_cases h0 : (h.run (Cmd.str (pip ++ " list --format=freeze"))).rc = 0
  · simp [h0, strCmdOnly]
  · by_cases h1 : (h.run (Cmd.str (pip ++ " freeze"))).rc = 0
    · simp [h0, h1, strCmdOnly, isPipListCmd, strEndsWith_append]
    · simp only [h0, h1, ne_eq, not_false_eq_true, if_true, ite_true, not_true_eq_false,
        if_false, ite_false]
      refine ⟨by simp [strCmdOnly], by simp, fun o ho => ?_⟩
      rw [show o = _ from by injection ho with h2; exact h2.symm]
      rfl

/-- `pipPackagesStep` only fails with `fail_json` or an exception. -/
theorem pipPackagesStep_error (h : Host) (p : PipParams) (nameL : List String) :
    ∀ o, pipPackagesStep h p nameL = .error o → o.isExit = false := by
  intro o ho
  unfold pipPackagesStep at ho
  by_cases hn : nameL.isEmpty = true
  · simp [hn] at ho
  · simp only [hn, Bool.false_eq_true, if_false, ite_false] at ho
    cases hv : p.version with
    | none => rw [hv] at ho; exact absurd ho (by simp)
    | some ver =>
      rw [hv] at ho
      dsimp only at ho
      split at ho
      · rw [show o = _ from by injection ho with h2; exact h2.symm]; rfl
      · split at ho
        · rw [show o = _ from by injection ho with h2; exact h2.symm]; rfl
        · split at ho
          · rw [show o = _ from by injection ho with h2; exact h2.symm]; rfl
          · split at ho
            · rw [show o = _ from by injection ho with h2; exact h2.symm]; rfl
            · exact absurd ho (by simp)

/-- The version validation: with a version and either several packages or a
single one carrying its own specifier, `pipPackagesStep` is a
`fail_json`. -/
theorem pipPackagesStep_validation (h : Host) (p : PipParams) (nameL : List String)
    (hname : nameL.isEmpty = false) (hv : p.version ≠ none)
    (hbad : 1 < ((_recover_package_name nameL).map (mkPackagePlain h.reqParse)).length ∨
      (∃ pk, (_recover_package_name nameL).map (mkPackagePlain h.reqParse) = [pk] ∧
        pk.has_version_specifier = true)) :
    ∃ m, pipPackagesStep h p nameL = .error (.failJson m) := by
  unfold pipPackagesStep
  cases hver : p.version with
  | none => exact absurd hver hv
  | some ver =>
    rcases hbad with hlen | ⟨pk, hpk, hspec⟩
    · have hlen2 : 1 < (_recover_package_name nameL).length := by simpa using hlen
      refine ⟨"'version' argument is ambiguous when installing multiple package distributions. " ++
        "Please specify version restrictions next to each package in 'name' argument.", ?_⟩
      simp only [hname, Bool.false_eq_true, if_false, ite_false, hver]
      rw [if_pos (by simpa using hlen2)]
    · refine ⟨"The 'version' argument conflicts with any version specifier provided along with a package name. " ++
        "Please keep the version specifier, but remove the 'version' argument.", ?_⟩
      have hlen1 : ¬(1 < (List.map (mkPackagePlain h.reqParse)
          (_recover_package_name nameL)).length) := by
        rw [hpk]
        simp
      simp only [hname, Bool.false_eq_true, if_false, ite_false, hver]
      rw [if_neg (by simpa using hlen1), hpk]
      try dsimp only
      rw [if_pos hspec]

/-- Lift a property of `pipMainTry` through the umask wrapper of
`pipMainRun` (the wrapper's own failures exit nothing and run nothing). -/
theorem pipMainRun_from_try (p : PipParams) (h : Host) (u0 : Int) (v0 : Option String)
    (hT1 : (pipMainTry p h).1.isExit = false)
    (hT2 : (pipMainTry p h).2.all strCmdOnly = true) :
    (pipMainRun p h u0 v0).outcome.isExit = false ∧
    (pipMainRun p h u0 v0).trace.all strCmdOnly = true := by
  unfold pipMainRun
  cases hmt : pipMainTry p h with
  | mk o tr =>
    rw [hmt] at hT1 hT2
    cases hu : p.umask with
    | none =>
      try dsimp only
      exact ⟨hT1, hT2⟩
    | some u =>
      try dsimp only
      by_cases hu0 : u = ""
      · rw [if_pos hu0]
        exact ⟨rfl, rfl⟩
      · rw [if_neg hu0]
        cases hpo : parseOctal u with
        | none => exact ⟨rfl, rfl⟩
        | some n =>
          try dsimp only
          exact ⟨hT1, hT2⟩

/-- The pip module's `try:` body under the C7 validation premises: it does
not exit successfully and runs only shell-string commands (so no
install/uninstall argv command). -/
theorem pipMainTry_validation (p : PipParams) (h : Host)
    (hv : p.version ≠ none)
    (hcm : ¬(p.checkMode = true ∧ needsVenv h (envAdjust p.virtualenv p.chdir) = true))
    (hname : (p.name.getD []).isEmpty = false)
    (hbad : 1 < ((_recover_package_name (p.name.getD [])).map
        (mkPackagePlain h.reqParse)).length ∨
      (∃ pk, (_recover_package_name (p.name.getD [])).map (mkPackagePlain h.reqParse) =
          [pk] ∧ pk.has_version_specifier = true)) :
    (pipMainTry p h).1.isExit = false ∧ (pipMainTry p h).2.all strCmdOnly = true := by
  unfold pipMainTry
  try dsimp only
  by_cases hlat : p.state = PipState.latest ∧ p.version ≠ none
  · rw [if_pos hlat]
    exact ⟨rfl, rfl⟩
  · rw [if_neg hlat]
    obtain ⟨hE, hOk, hErr, hEx⟩ :=
      venvStepRun_spec h (pipVenvArgs p) (p.chdir.getD h.tmpdir)
        (envAdjust p.virtualenv p.chdir)
    cases hvs : venvStepRun h (pipVenvArgs p) (p.chdir.getD h.tmpdir)
        (envAdjust p.virtualenv p.chdir) with
    | mk r app0 =>
      rw [hvs] at hE hOk hErr hEx
      cases r with
      | error o =>
        try dsimp only
        refine ⟨?_, hE⟩
        by_cases hcmode : p.checkMode = true
        · have hnv : needsVenv h (envAdjust p.virtualenv p.chdir) = false := by
            cases hx : needsVenv h (envAdjust p.virtualenv p.chdir)
            · rfl
            · exact absurd ⟨hcmode, hx⟩ hcm
          have hok : venvStepRun h (pipVenvArgs p) (p.chdir.getD h.tmpdir)
              (envAdjust p.virtualenv p.chdir) = (.ok (false, "", ""), []) := by
            unfold venvStepRun
            simp [hnv]
          rw [hvs] at hok
          exact absurd hok (by simp)
        · have hcmf : (pipVenvArgs p).checkMode = false := by
            show p.checkMode = false
            cases hc2 : p.checkMode
            · rfl
            · exact absurd hc2 hcmode
          exact hErr hcmf o rfl
      | ok v =>
        obtain ⟨vc, out, err⟩ := v
        try dsimp only
        cases hgp : _get_pip h (envAdjust p.virtualenv p.chdir) p.executable with
        | error o =>
          try dsimp only
          exact ⟨get_pip_error _ _ _ o hgp, hE⟩
        | ok pip =>
          try dsimp only
          obtain ⟨m, hm⟩ := pipPackagesStep_validation h p (p.name.getD []) hname hv hbad
          rw [hm]
          try dsimp only
          exact ⟨rfl, hE⟩

/-- `state=latest` with a version fails before anything runs. -/
theorem pipMainTry_latest (p : PipParams) (h : Host)
    (hv : p.version ≠ none) (hst : p.state = PipState.latest) :
    pipMainTry p h = (.failJson "version is incompatible with state=latest", []) := by
  unfold pipMainTry
  try dsimp only
  rw [if_pos ⟨hst, hv⟩]

/-- C7 counterexample: in check mode, a missing virtualenv makes
`setup_virtualenv` exit with `changed=true` before the version validation,
so a run with `version` and two package distributions exits successfully
instead of failing. -/
theorem version_validation_preempted_in_check_mode :
    (pipMainRun
        { checkMode := true, virtualenv := some "/venv", name := some ["a", "b"],
          version := some "1.0" }
        hostNoFs 18 none).outcome = .exitJson true "" "" ∧
    1 < ((_recover_package_name ["a", "b"]).map
      (mkPackagePlain hostNoFs.reqParse)).length := by
  exact ⟨rfl, by decide⟩

/-- C7 amended: when the `version` parameter is supplied, the pip module
fails (it never reaches `module.exit_json`) and runs no install/uninstall
command (every trace entry is a shell-string command, never the argv pip
command) whenever `state=latest`, or whenever `name` holds more than one
package distribution or a single one carrying its own version specifier —
except that in check mode a virtualenv about to be created exits early with
`changed=true` before the validation (see the counterexample). -/
theorem version_validation_fails :
    (∀ (p : PipParams) (h : Host) (u0 : Int) (v0 : Option String),
      p.version ≠ none → p.state = PipState.latest →
      (pipMainRun p h u0 v0).outcome.isExit = false ∧
      (pipMainRun p h u0 v0).trace.all strCmdOnly = true) ∧
    (∀ (p : PipParams) (h : Host) (u0 : Int) (v0 : Option String),
      p.version ≠ none →
      ¬(p.checkMode = true ∧ needsVenv h (envAdjust p.virtualenv p.chdir) = true) →
      (p.name.getD []).isEmpty = false →
      (1 < ((_recover_package_name (p.name.getD [])).map
          (mkPackagePlain h.reqParse)).length ∨
        (∃ pk, (_recover_package_name (p.name.getD [])).map (mkPackagePlain h.reqParse) =
            [pk] ∧ pk.has_version_specifier = true)) →
      (pipMainRun p h u0 v0).outcome.isExit = false ∧
      (pipMainRun p h u0 v0).trace.all strCmdOnly = true) := by
  constructor
  · intro p h u0 v0 hv hst
    have hT := pipMainTry_latest p h hv hst
    exact pipMainRun_from_try p h u0 v0 (by rw [hT]; rfl) (by rw [hT]; rfl)
  · intro p h u0 v0 hv hcm hname hbad
    obtain ⟨h1, h2⟩ := pipMainTry_validation p h hv hcm hname hbad
    exact pipMainRun_from_try p h u0 v0 h1 h2

/-- C7 amended, instantiated: two package distributions plus `version`
fail without running anything. -/
theorem version_validation_fails_witness :
    (pipMainRun { name := some ["a", "b"], version := some "1.0" }
      hostOk 18 none).outcome.isExit = false ∧
    (pipMainRun { name := some ["a", "b"], version := some "1.0" }
      hostOk 18 none).trace.all strCmdOnly = true :=
  version_validation_fails.2 { name := some ["a", "b"], version := some "1.0" }
    hostOk 18 none (by decide) (by decide) (by decide) (Or.inl (by decide))

/-! ## Lemmas for the failure-reporting theorem (C2) -/

/-- Weakening a `List.all`. -/
theorem all_imp {α : Type} (l : List α) (p q : α → Bool)
    (h : l.all p = true) (himp : ∀ e, p e = true → q e = true) : l.all q = true := by
  simp only [List.all_eq_true] at *
  exact fun e he => himp e (h e he)

/-- Zero exit codes satisfy `pipOkEntry`. -/
theorem pipOk_of_rc0 (st : PipState) (l : List Entry)
    (h : l.all (fun e => decide (e.2.rc = 0)) = true) : l.all (pipOkEntry st) = true :=
  all_imp l _ _ h (fun e he => by simp [pipOkEntry, of_decide_eq_true he])

/-- Listing entries satisfy `pipOkEntry`. -/
theorem pipOk_of_listing (st : PipState) (l : List Entry)
    (h : l.all (fun e => decide (e.2.rc = 0) || isPipListCmd e.1) = true) :
    l.all (pipOkEntry st) = true :=
  all_imp l _ _ h (fun e he => by
    have he2 : e.2.rc = 0 ∨ isPipListCmd e.1 = true := by simpa using he
    rcases he2 with h1 | h1 <;> simp [pipOkEntry, h1])

/-- Version-probe entries satisfy `pipOkEntry`. -/
theorem pipOk_of_pycheck (st : PipState) (l : List Entry)
    (h : l.all (fun e => isPyCheckCmd e.1) = true) : l.all (pipOkEntry st) = true :=
  all_imp l _ _ h (fun e he => by simp [pipOkEntry, he])

/-- The version probe runs only `python -c` commands. -/
theorem get_package_info_entries (h : Host) (pkg : String) (env : Option String) :
    (_get_package_info h pkg env).2.all (fun e => isPyCheckCmd e.1) = true := by
  unfold _get_package_info
  try dsimp only
  cases hb : h.getBinPath (if optTruthy env = true then [env.getD "" ++ "/bin"] else [])
      "python" with
  | none => rfl
  | some py =>
    try dsimp only
    by_cases hrc : (h.run (Cmd.argv [py, "-c", specialPackageChecker pkg])).rc = 0 <;>
      simp [hrc, isPyCheckCmd]

/-- `addSpecial` runs only `python -c` commands. -/
theorem addSpecial_entries (h : Host) (env : Option String) (nameL : List String)
    (pkg : String) (pkgList : List String) (out : String) :
    (addSpecial h env nameL pkg pkgList out).2.2.all (fun e => isPyCheckCmd e.1) = true := by
  unfold addSpecial
  by_cases hc : pkg ∈ nameL
  · have hcb : nameL.contains pkg = true := by simpa using hc
    simp only [hcb, if_true, ite_true]
    have hgi := get_package_info_entries h pkg env
    cases hg : _get_package_info h pkg env with
    | mk d app =>
      rw [hg] at hgi
      cases d <;> simpa using hgi
  · simp [hc]

/-- `_get_pipenv` only fails with `fail_json`. -/
theorem get_pipenv_error (h : Host) (env executable : Option String) :
    ∀ o, _get_pipenv h env executable = .error o → o.isExit = false := by
  intro o ho
  unfold _get_pipenv at ho
  by_cases h1 : optTruthy env = true
  · simp [h1] at ho
  · simp only [h1, Bool.false_eq_true, if_false, ite_false] at ho
    by_cases h2 : optTruthy executable = true
    · simp [h2] at ho
    · simp only [h2, Bool.false_eq_true, if_false, ite_false] at ho
      split at ho
      · exact absurd ho (by simp)
      · rw [show o = _ from by injection ho with hx; exact hx.symm]
        rfl

/-- A tolerated final command: the pass condition of the uninstall branch
or a zero exit satisfies `pipOkEntry`. -/
theorem pipOk_of_pass (st : PipState) (c : Cmd) (r : RunResult)
    (hp : (decide (r.rc = 1) && decide (st = PipState.absent) &&
        (pyContains r.out "not installed" || pyContains r.err "not installed")) = true ∨
      r.rc = 0) :
    pipOkEntry st (c, r) = true := by
  rcases hp with hp | hp
  · simp [pipOkEntry, absentNotInstalled, hp]
  · simp [pipOkEntry, hp]

/-- `pipFreezeBefore`: a snapshot result leaves only listing entries, a
failure is never an `exit_json`. -/
theorem pipFreezeBefore_spec (h : Host) (pip : String) (cond : Bool) :
    (∀ v, (pipFreezeBefore h pip cond).1 = .ok v →
      (pipFreezeBefore h pip cond).2.all
        (fun e => decide (e.2.rc = 0) || isPipListCmd e.1) = true) ∧
    (∀ o, (pipFreezeBefore h pip cond).1 = .error o → o.isExit = false) := by
  unfold pipFreezeBefore
  by_cases hc : cond = true
  · simp only [hc, if_true, ite_true]
    obtain ⟨hE, hOk, hErr⟩ := get_packages_spec h pip
    cases hg : _get_packages h pip with
    | mk r app =>
      rw [hg] at hOk hErr
      cases r with
      | error o =>
        try dsimp only
        refine ⟨fun v hv => absurd hv (by simp), fun o2 ho2 => ?_⟩
        have : o2 = o := by injection ho2 with hx; exact hx.symm
        subst this
        exact hErr o2 rfl
      | ok v =>
        try dsimp only
        exact ⟨fun v2 _ => hOk v rfl, fun o ho => absurd ho (by simp)⟩
  · simp [hc]

/-- `pipRunStep` leaves only tolerated entries behind when it exits
successfully. -/
theorem pipRunStep_ok (p : PipParams) (h : Host) (venvCreated : Bool)
    (out err pip : String) (cmd : List String) (freezeBefore : Option String) :
    (pipRunStep p h venvCreated out err pip cmd freezeBefore).1.isExit = true →
    (pipRunStep p h venvCreated out err pip cmd freezeBefore).2.all
      (pipOkEntry p.state) = true := by
  unfold pipRunStep
  try dsimp only
  split
  case _ hpassneg =>
    intro hex
    simp [Outcome.isExit, failOutcome] at hex
  case _ hpass =>
    have hentry : pipOkEntry p.state (Cmd.argv cmd, h.run (Cmd.argv cmd)) = true := by
      apply pipOk_of_pass
      by_cases hA : (decide ((h.run (Cmd.argv cmd)).rc = 1) &&
          decide (p.state = PipState.absent) &&
          (pyContains (h.run (Cmd.argv cmd)).out "not installed" ||
            pyContains (h.run (Cmd.argv cmd)).err "not installed")) = true
      · exact Or.inl hA
      · right
        have hA2 : (decide ((h.run (Cmd.argv cmd)).rc = 1) &&
            decide (p.state = PipState.absent) &&
            (pyContains (h.run (Cmd.argv cmd)).out "not installed" ||
              pyContains (h.run (Cmd.argv cmd)).err "not installed")) = false := by
          cases hAv : (decide ((h.run (Cmd.argv cmd)).rc = 1) &&
              decide (p.state = PipState.absent) &&
              (pyContains (h.run (Cmd.argv cmd)).out "not installed" ||
                pyContains (h.run (Cmd.argv cmd)).err "not installed"))
          · rfl
          · exact absurd hAv hA
        by_cases hB : (h.run (Cmd.argv cmd)).rc = 0
        · exact hB
        · exfalso
          apply hpass
          rw [hA2]
          simp [hB]
    split
    case _ o app2 heq2 =>
      intro hex
      have ho2 : o.isExit = false := by
        split at heq2
        · exact absurd heq2 (by simp)
        · split at heq2
          · exact absurd heq2 (by simp)
          · split at heq2
            case _ o3 app3 heq3 =>
              simp only [Prod.mk.injEq, Except.error.injEq] at heq2
              obtain ⟨ho3, happ3⟩ := heq2
              subst ho3
              exact (get_packages_spec h pip).2.2 _ (by rw [heq3])
            case _ => exact absurd heq2 (by simp)
      rw [ho2] at hex
      exact absurd hex (by simp)
    case _ chg app2 heq2 =>
      intro _
      rw [List.all_append]
      refine Bool.and_eq_true_iff.mpr ⟨?_, ?_⟩
      · simpa using hentry
      · split at heq2
        · rw [show app2 = [] from by injection heq2 with _ hx; exact hx.symm]
          rfl
        · split at heq2
          · rw [show app2 = [] from by injection heq2 with _ hx; exact hx.symm]
            rfl
          · split at heq2
            case _ => exact absurd heq2 (by simp)
            case _ v app3 heq3 =>
              rw [show app2 = app3 from by injection heq2 with _ hx; exact hx.symm]
              exact pipOk_of_listing p.state app3
                (by
                  have := (get_packages_spec h pip).2.1 v (by rw [heq3])
                  rw [heq3] at this
                  exact this)

/-- The tail of the pip module leaves only tolerated entries behind when it
exits successfully. -/
theorem pipRest_ok (p : PipParams) (h : Host) (venvCreated : Bool) (out err pip : String)
    (cmd : List String) (packages : List Package) (nameL : List String)
    (extraT hasVcs : Bool) (env1 : Option String) :
    (pipRest p h venvCreated out err pip cmd packages nameL extraT hasVcs env1).1.isExit =
      true →
    (pipRest p h venvCreated out err pip cmd packages nameL extraT hasVcs env1).2.all
      (pipOkEntry p.state) = true := by
  unfold pipRest
  split
  · -- check mode
    split
    · intro _; rfl
    · split
      case _ o app heq =>
        intro hex
        have hne := (get_packages_spec h pip).2.2 o (by rw [heq])
        rw [hne] at hex
        exact absurd hex (by simp)
      case _ pkgCmd outP errP app heq =>
        try dsimp only
        split
        case _ e heq2 =>
          intro hex
          simp [Outcome.isExit] at hex
        case _ chg heq2 =>
          intro _
          rw [List.all_append]
          refine Bool.and_eq_true_iff.mpr ⟨?_, ?_⟩
          · exact pipOk_of_listing p.state app
              (by
                have := (get_packages_spec h pip).2.1 (pkgCmd, outP, errP) (by rw [heq])
                rw [heq] at this
                exact this)
          · split
            · rw [List.all_append]
              refine Bool.and_eq_true_iff.mpr ⟨?_, ?_⟩
              · exact pipOk_of_pycheck p.state _ (addSpecial_entries h env1 nameL _ _ _)
              · exact pipOk_of_pycheck p.state _ (addSpecial_entries h env1 nameL _ _ _)
            · rfl
  · -- real run
    split
    case _ o appF heq =>
      intro hex
      have hb := pipFreezeBefore_spec h pip (optTruthy p.requirements || hasVcs)
      have := hb.2 o (by rw [heq])
      rw [this] at hex
      exact absurd hex (by simp)
    case _ fb appF heq =>
      try dsimp only
      have hAppF : appF.all (pipOkEntry p.state) = true := by
        have hb := pipFreezeBefore_spec h pip (optTruthy p.requirements || hasVcs)
        have hl := hb.1 fb (by rw [heq])
        rw [heq] at hl
        exact pipOk_of_listing p.state appF hl
      intro hex
      rw [List.all_append]
      refine Bool.and_eq_true_iff.mpr ⟨hAppF, ?_⟩
      exact pipRunStep_ok p h venvCreated out err pip cmd fb hex

/-- A successful pip-module `try:` body leaves only tolerated entries. -/
theorem pipMainTry_ok (p : PipParams) (h : Host) :
    (pipMainTry p h).1.isExit = true →
    (pipMainTry p h).2.all (pipOkEntry p.state) = true := by
  unfold pipMainTry
  try dsimp only
  split
  · intro hex
    simp [Outcome.isExit] at hex
  · obtain ⟨hE, hOk, hErr, hEx⟩ :=
      venvStepRun_spec h (pipVenvArgs p) (p.chdir.getD h.tmpdir)
        (envAdjust p.virtualenv p.chdir)
    split
    case _ o app0 heq =>
      intro hex
      rw [heq] at hEx
      have hres := hEx o rfl hex
      have happ : app0 = [] := by
        have := congrArg Prod.snd hres
        simpa using this
      rw [happ]
      rfl
    case _ vc outv errv app0 heq =>
      rw [heq] at hOk
      have happ0 : app0.all (pipOkEntry p.state) = true :=
        pipOk_of_rc0 p.state app0 (by simpa using hOk (vc, outv, errv) rfl)
      split
      case _ o heq2 =>
        intro hex
        have := get_pip_error h (envAdjust p.virtualenv p.chdir) p.executable o heq2
        rw [this] at hex
        exact absurd hex (by simp)
      case _ pip heq2 =>
        split
        case _ o heq3 =>
          intro hex
          have := pipPackagesStep_error h p (p.name.getD []) o heq3
          rw [this] at hex
          exact absurd hex (by simp)
        case _ packages heq3 =>
          try dsimp only
          split
          · dsimp only
            intro hex
            rw [List.all_append]
            refine Bool.and_eq_true_iff.mpr ⟨happ0, ?_⟩
            exact pipRest_ok p h vc outv errv pip _ packages (p.name.getD []) _ _
              (envAdjust p.virtualenv p.chdir) hex
          · split
            · dsimp only
              intro hex
              rw [List.all_append]
              refine Bool.and_eq_true_iff.mpr ⟨happ0, ?_⟩
              exact pipRest_ok p h vc outv errv pip _ packages (p.name.getD []) _ _
                (envAdjust p.virtualenv p.chdir) hex
            · intro _
              exact happ0

/-- Lift `pipMainTry_ok` through the umask wrapper. -/
theorem pipMainRun_ok (p : PipParams) (h : Host) (u0 : Int) (v0 : Option String) :
    (pipMainRun p h u0 v0).outcome.isExit = true →
    (pipMainRun p h u0 v0).trace.all (pipOkEntry p.state) = true := by
  have hT := pipMainTry_ok p h
  unfold pipMainRun
  cases hmt : pipMainTry p h with
  | mk o tr =>
    rw [hmt] at hT
    cases hu : p.umask with
    | none =>
      try dsimp only
      exact hT
    | some u =>
      try dsimp only
      by_cases hu0 : u = ""
      · rw [if_pos hu0]
        intro hex
        simp [Outcome.isExit] at hex
      · rw [if_neg hu0]
        cases hpo : parseOctal u with
        | none =>
          intro hex
          simp [Outcome.isExit] at hex
        | some n =>
          try dsimp only
          exact hT

/-- `pipenvInstallStep`: a result means its entry (if any) exited 0, a
failure is a `fail_json`. -/
theorem pipenvInstallStep_spec (h : Host) (pres : Bool) (env1 : Option String)
    (out err : String) :
    (∀ v, (pipenvInstallStep h pres env1 out err).1 = .ok v →
      (pipenvInstallStep h pres env1 out err).2.all (fun e => decide (e.2.rc = 0)) = true) ∧
    (∀ o, (pipenvInstallStep h pres env1 out err).1 = .error o → o.isExit = false) := by
  unfold pipenvInstallStep
  by_cases hc : (!pres && optTruthy env1) = true
  · simp only [hc, if_true, ite_true]
    by_cases hrc : (h.run (Cmd.argv ["pip", "install", "pipenv"])).rc = 0
    · simp [hrc]
    · simp only [hrc, ne_eq, not_false_eq_true, if_true, ite_true]
      refine ⟨fun v hv => absurd hv (by simp), fun o ho => ?_⟩
      rw [show o = _ from by injection ho with hx; exact hx.symm]
      rfl
  · simp [hc]

/-- Zero exit codes satisfy `pipenvOkEntry`. -/
theorem pipenvOk_of_rc0 (l : List Entry)
    (h : l.all (fun e => decide (e.2.rc = 0)) = true) : l.all pipenvOkEntry = true :=
  all_imp l _ _ h (fun e he => by simp [pipenvOkEntry, of_decide_eq_true he])

/-- A successful pipenv-module `try:` body leaves only tolerated
entries. -/
theorem pipenvMainTry_ok (p : PipenvParams) (h : Host) (v0 : Option String) :
    (pipenvMainTry p h v0).1.isExit = true →
    (pipenvMainTry p h v0).2.1.all pipenvOkEntry = true := by
  unfold pipenvMainTry
  try dsimp only
  obtain ⟨hE, hOk, hErr, hEx⟩ :=
    venvStepRun_spec h (pipenvVenvArgs p) (p.chdir.getD h.tmpdir)
      (envAdjust p.virtualenv p.chdir)
  split
  case _ o app0 heq =>
    intro hex
    rw [heq] at hEx
    have hres := hEx o rfl hex
    have happ : app0 = [] := by
      have := congrArg Prod.snd hres
      simpa using this
    rw [happ]
    rfl
  case _ vc outv errv app0 heq =>
    rw [heq] at hOk
    have happ0 : app0.all pipenvOkEntry = true :=
      pipenvOk_of_rc0 app0 (by simpa using hOk (vc, outv, errv) rfl)
    split
    case _ o heq2 =>
      intro hex
      have := get_pip_error h (envAdjust p.virtualenv p.chdir)
        (some (p.chdir.getD h.tmpdir)) o heq2
      rw [this] at hex
      exact absurd hex (by simp)
    case _ pip heq2 =>
      obtain ⟨hgE, hgOk, hgErr⟩ := get_packages_spec h pip
      split
      case _ o app1 heq3 =>
        intro hex
        rw [heq3] at hgErr
        have := hgErr o rfl
        rw [this] at hex
        exact absurd hex (by simp)
      case _ packagesT app1 heq3 =>
        try dsimp only
        rw [heq3] at hgOk
        have happ1 : app1.all pipenvOkEntry = true := by
          have hall := hgOk packagesT rfl
          exact all_imp app1 _ _ hall (fun e he => by
            have he2 : e.2.rc = 0 ∨ isPipListCmd e.1 = true := by simpa using he
            rcases he2 with h1 | h1 <;> simp [pipenvOkEntry, h1])
        split
        · intro hex
          simp [Outcome.isExit] at hex
        case _ pres hpres =>
          obtain ⟨hiOk, hiErr⟩ := pipenvInstallStep_spec h pres
            (envAdjust p.virtualenv p.chdir) outv errv
          split
          case _ o app2 heq4 =>
            intro hex
            rw [heq4] at hiErr
            have := hiErr o rfl
            rw [this] at hex
            exact absurd hex (by simp)
          case _ vi outi erri app2 heq4 =>
            try dsimp only
            rw [heq4] at hiOk
            have happ2 : app2.all pipenvOkEntry = true :=
              pipenvOk_of_rc0 app2 (by simpa using hiOk (vi, outi, erri) rfl)
            split
            · intro hex
              simp [Outcome.isExit] at hex
            case _ pa hpa =>
              rw [if_pos (show has_changes (pathJoin pa "Pipfile.lock") pip = true from rfl)]
              split
              case _ o heq5 =>
                intro hex
                have := get_pipenv_error h (envAdjust p.virtualenv p.chdir) p.executable o heq5
                rw [this] at hex
                exact absurd hex (by simp)
              case _ pvBin heq5 =>
                try dsimp only
                by_cases hrc : (h.run (Cmd.argv [pvBin, "sync"])).rc = 0
                · simp only [hrc, ne_eq, not_true_eq_false, if_false, ite_false]
                  intro _
                  simp only [List.all_append]
                  refine Bool.and_eq_true_iff.mpr
                    ⟨Bool.and_eq_true_iff.mpr ⟨Bool.and_eq_true_iff.mpr ⟨happ0, happ1⟩,
                      happ2⟩, ?_⟩
                  simp [pipenvOkEntry, hrc]
                · simp only [hrc, ne_eq, not_false_eq_true, if_true, ite_true]
                  intro hex
                  simp [Outcome.isExit, failOutcome] at hex

/-- Lift `pipenvMainTry_ok` through the umask wrapper. -/
theorem pipenvMainRun_ok (p : PipenvParams) (h : Host) (u0 : Int) (v0 : Option String) :
    (pipenvMainRun p h u0 v0).outcome.isExit = true →
    (pipenvMainRun p h u0 v0).trace.all pipenvOkEntry = true := by
  have hT := pipenvMainTry_ok p h v0
  unfold pipenvMainRun
  cases hmt : pipenvMainTry p h v0 with
  | mk o rest =>
    obtain ⟨tr, v1⟩ := rest
    rw [hmt] at hT
    cases hu : p.umask with
    | none =>
      try dsimp only
      exact hT
    | some u =>
      try dsimp only
      by_cases hu0 : u = ""
      · rw [if_pos hu0]
        intro hex
        simp [Outcome.isExit] at hex
      · rw [if_neg hu0]
        cases hpo : parseOctal u with
        | none =>
          intro hex
          simp [Outcome.isExit] at hex
        | some n =>
          try dsimp only
          exact hT

/-- C2 counterexample: on a host where `pip uninstall` exits 1 saying the
package is not installed, the pip module (state=absent, name=[six]) runs
exactly that nonzero-exiting command yet exits successfully instead of
reporting failure, contradicting the claim that every nonzero subprocess
exit is reported as a failure. -/
theorem uninstall_nonzero_exit_reported_success :
    (pipMainRun { state := .absent, name := some ["six"] }
        hostUninstallMissing 18 none).outcome
      = .exitJson false "Skipping six as it is not installed." "" ∧
    (pipMainRun { state := .absent, name := some ["six"] }
        hostUninstallMissing 18 none).trace
      = [(Cmd.argv ["/usr/bin/pip3", "uninstall", "-y", "six"],
          ⟨1, "Skipping six as it is not installed.", ""⟩)] :=
  ⟨rfl, rfl⟩

/-- C2 (amended): whenever either module's main() exits successfully, every
subprocess it ran exited zero except the three tolerated cases (the
`pip list --format=freeze` probe that falls back to `pip freeze`, the
`python -c` version probes whose nonzero exit only marks the package
absent, and a state=absent `pip uninstall` that exits nonzero reporting the
package not installed); contrapositively a nonzero exit outside those
cases makes the module report failure, and the `_fail` message forwards
the captured stdout and stderr verbatim. -/
theorem nonzero_exit_reports_failure (p : PipParams) (pp : PipenvParams)
    (h hp : Host) (u0 up : Int) (v0 vp : Option String) (out err : String)
    (ho : out ≠ "") (he : err ≠ "") :
    ((pipMainRun p h u0 v0).outcome.isExit = true →
      (pipMainRun p h u0 v0).trace.all (pipOkEntry p.state) = true) ∧
    ((pipenvMainRun pp hp up vp).outcome.isExit = true →
      (pipenvMainRun pp hp up vp).trace.all pipenvOkEntry = true) ∧
    failMsg out err = "stdout: " ++ out ++ "\n:stderr: " ++ err :=
  ⟨pipMainRun_ok p h u0 v0, pipenvMainRun_ok pp hp up vp, by
    simp [failMsg, ho, he, String.append_assoc]⟩

/-- C2 witness: the amended theorem instantiated on the all-succeeding
host with a concrete install request, and on concrete nonempty output
strings. -/
theorem nonzero_exit_reports_failure_witness :
    (pipMainRun { name := some ["six"] } hostOk 18 none).trace.all
      (pipOkEntry PipState.present) = true ∧
    failMsg "boom" "bad" = "stdout: " ++ "boom" ++ "\n:stderr: " ++ "bad" := by
  obtain ⟨h1, _, h3⟩ :=
    nonzero_exit_reports_failure { name := some ["six"] } {} hostOk hostOk
      18 18 none none "boom" "bad" (by decide) (by decide)
  exact ⟨h1 (by rfl), h3⟩

/-- A trace of at most one entry trivially satisfies `lastFailOnly`. -/
theorem lastFailOnly_short (ok : Entry → Bool) : ∀ l : List Entry, l.length ≤ 1 →
    lastFailOnly ok l = true
  | [], _ => rfl
  | [e], _ => by simp [lastFailOnly]
  | a :: b :: l2, hl => by simp at hl

/-- `lastFailOnly` over an append whose prefix is wholly `ok`. -/
theorem lastFailOnly_append (ok : Entry → Bool) : ∀ a b : List Entry,
    a.all ok = true → lastFailOnly ok b = true → lastFailOnly ok (a ++ b) = true
  | [], b, _, hb => by simpa using hb
  | e :: l2, b, ha, hb => by
    simp only [List.all_cons, Bool.and_eq_true] at ha
    simp only [List.cons_append, lastFailOnly, Bool.and_eq_true, Bool.or_eq_true]
    exact ⟨Or.inl ha.1, lastFailOnly_append ok l2 b ha.2 hb⟩

/-- A wholly-`ok` trace satisfies `lastFailOnly`. -/
theorem lastFailOnly_all (ok : Entry → Bool) (l : List Entry) (hl : l.all ok = true) :
    lastFailOnly ok l = true := by
  have := lastFailOnly_append ok l [] hl rfl
  simpa using this

/-- A wholly-`ok` trace followed by one arbitrary final entry. -/
theorem lastFailOnly_snoc (ok : Entry → Bool) (a : List Entry) (e : Entry)
    (ha : a.all ok = true) : lastFailOnly ok (a ++ [e]) = true :=
  lastFailOnly_append ok a [e] ha (lastFailOnly_short ok [e] (by simp))

/-- `lastFailOnly` is monotone in the tolerance predicate. -/
theorem lastFailOnly_mono (ok ok2 : Entry → Bool) (him : ∀ e, ok e = true → ok2 e = true) :
    ∀ l : List Entry, lastFailOnly ok l = true → lastFailOnly ok2 l = true
  | [], _ => rfl
  | e :: l2, hl => by
    simp only [lastFailOnly, Bool.and_eq_true, Bool.or_eq_true] at hl ⊢
    refine ⟨?_, lastFailOnly_mono ok ok2 him l2 hl.2⟩
    rcases hl.1 with h1 | h1
    · exact Or.inl (him e h1)
    · exact Or.inr h1

/-- No entry of a wholly-`p` trace is counted by a predicate `q` disjoint
from `p`. -/
theorem countP_zero_of_all (l : List Entry) (p q : Entry → Bool)
    (hall : l.all p = true) (hpq : ∀ e, p e = true → q e = false) :
    l.countP q = 0 := by
  rw [List.countP_eq_zero]
  intro a ha
  have hp := List.all_eq_true.mp hall a ha
  simp [hpq a hp]

/-- A one-entry trace contributes at most one to any count. -/
theorem countP_single_le (q : Entry → Bool) (e : Entry) : List.countP q [e] ≤ 1 := by
  have := List.countP_le_length (l := [e]) (p := q)
  simpa using this

/-- A shell-string entry is not an install/uninstall invocation. -/
theorem strCmd_not_action (e : Entry) (hs : strCmdOnly e = true) : actionEntry e = false := by
  obtain ⟨c, r⟩ := e
  cases c with
  | str s => rfl
  | argv a => simp [strCmdOnly] at hs

/-- A shell-string entry is not a `pipenv sync` invocation. -/
theorem strCmd_not_sync (e : Entry) (hs : strCmdOnly e = true) : syncEntry e = false := by
  obtain ⟨c, r⟩ := e
  cases c with
  | str s => rfl
  | argv a => simp [strCmdOnly] at hs

/-- A `python -c` probe command has the shape `[python, -c, one-liner]`. -/
theorem pycheck_shape (c : Cmd) (hs : isPyCheckCmd c = true) :
    ∃ x y, c = Cmd.argv [x, "-c", y] := by
  cases c with
  | str s => exact absurd hs (by simp [isPyCheckCmd])
  | argv a =>
    cases a with
    | nil => exact absurd hs (by simp [isPyCheckCmd])
    | cons x l2 =>
      cases l2 with
      | nil => exact absurd hs (by simp [isPyCheckCmd])
      | cons c2 l3 =>
        cases l3 with
        | nil => exact absurd hs (by simp [isPyCheckCmd])
        | cons y l4 =>
          cases l4 with
          | nil =>
            have hc : c2 = "-c" := by simpa [isPyCheckCmd] using hs
            exact ⟨x, y, by rw [hc]⟩
          | cons z l5 => exact absurd hs (by simp [isPyCheckCmd])

/-- A `python -c` probe entry is not an install/uninstall invocation. -/
theorem pycheck_not_action (e : Entry) (hs : isPyCheckCmd e.1 = true) :
    actionEntry e = false := by
  obtain ⟨x, y, hc⟩ := pycheck_shape e.1 hs
  simp only [actionEntry, hc]
  rfl

/-- A zero exit is a `pipOkEntry` (pointwise form). -/
theorem pipOk_of_rc0_e (st : PipState) (e : Entry) (hr : decide (e.2.rc = 0) = true) :
    pipOkEntry st e = true := by
  simp [pipOkEntry, of_decide_eq_true hr]

/-- A zero exit or a listing probe is a `pipOkEntry` (pointwise form). -/
theorem pipOk_of_listing_e (st : PipState) (e : Entry)
    (hr : (decide (e.2.rc = 0) || isPipListCmd e.1) = true) : pipOkEntry st e = true := by
  have h2 : e.2.rc = 0 ∨ isPipListCmd e.1 = true := by simpa using hr
  rcases h2 with h1 | h1 <;> simp [pipOkEntry, h1]

/-- A zero exit is a `pipenvOkEntry` (pointwise form). -/
theorem pipenvOk_of_rc0_e (e : Entry) (hr : decide (e.2.rc = 0) = true) :
    pipenvOkEntry e = true := by
  simp [pipenvOkEntry, of_decide_eq_true hr]

/-- `svSiteStep` records at most one entry. -/
theorem svSiteStep_len (h : Host) (va : VenvArgs) (cmd1 : String) :
    (svSiteStep h va cmd1).2.length ≤ 1 := by
  obtain ⟨hE, -, -⟩ := get_cmd_options_spec h cmd1
  unfold svSiteStep
  by_cases hsp : va.sitePackages = true
  · simp [hsp]
  · simp only [hsp, Bool.false_eq_true, if_false, ite_false]
    cases hg : _get_cmd_options h cmd1 with
    | mk r app =>
      rw [hg] at hE
      have happ : app = [(Cmd.str (cmd1 ++ " --help"),
          h.run (Cmd.str (cmd1 ++ " --help")))] := hE
      cases r <;> simp [happ]

/-- Within one `setup_virtualenv` call every entry except possibly the
last exited zero. -/
theorem setup_virtualenv_lfo (h : Host) (va : VenvArgs) (env chdir out err : String) :
    lastFailOnly (fun e => decide (e.2.rc = 0))
      (setup_virtualenv h va env chdir out err).2 = true := by
  unfold setup_virtualenv
  by_cases hcm : va.checkMode = true
  · simp [hcm, lastFailOnly]
  · simp only [hcm, Bool.false_eq_true, if_false, ite_false]
    cases hres : svResolveCmd h va with
    | error o => rfl
    | ok cmd1 =>
      try dsimp only
      obtain ⟨hsE, hsOk, hsErr⟩ := svSiteStep_spec h va cmd1
      have hlen := svSiteStep_len h va cmd1
      cases hsite : svSiteStep h va cmd1 with
      | mk r app =>
        rw [hsite] at hsOk hlen
        cases r with
        | error o =>
          try dsimp only
          exact lastFailOnly_short _ app (by simpa using hlen)
        | ok cmd2 =>
          try dsimp only
          have hAppOk : app.all (fun e => decide (e.2.rc = 0)) = true := by
            simpa using hsOk cmd2 rfl
          cases hpy : svPythonStep h va cmd2 with
          | error o =>
            try dsimp only
            exact lastFailOnly_all _ app hAppOk
          | ok cmd3 =>
            try dsimp only
            by_cases hrc : (h.run (Cmd.str (cmd3 ++ " " ++ env))).rc = 0
            · simp only [hrc, ne_eq, not_true_eq_false, if_false, ite_false]
              exact lastFailOnly_snoc _ app _ hAppOk
            · simp only [hrc, ne_eq, not_false_eq_true, if_true, ite_true]
              exact lastFailOnly_snoc _ app _ hAppOk

/-- `venvStepRun` inherits the `setup_virtualenv` abort discipline. -/
theorem venvStepRun_lfo (h : Host) (va : VenvArgs) (chdir : String) (env1 : Option String) :
    lastFailOnly (fun e => decide (e.2.rc = 0)) (venvStepRun h va chdir env1).2 = true := by
  unfold venvStepRun
  by_cases hneed : needsVenv h env1 = true
  · simp only [hneed, if_true, ite_true]
    have hs := setup_virtualenv_lfo h va (env1.getD "") chdir "" ""
    cases hsv : setup_virtualenv h va (env1.getD "") chdir "" "" with
    | mk r app =>
      rw [hsv] at hs
      cases r <;> simpa using hs
  · simp [hneed, lastFailOnly]

/-- Within one `_get_packages` call every entry except possibly the last
exited zero or is the tolerated first-try listing probe. -/
theorem get_packages_lfo (h : Host) (pip : String) :
    lastFailOnly (fun e => decide (e.2.rc = 0) || isPipListCmd e.1)
      (_get_packages h pip).2 = true := by
  unfold _get_packages
  by_cases h0 : (h.run (Cmd.str (pip ++ " list --format=freeze"))).rc = 0
  · simp [h0, lastFailOnly]
  · by_cases h1 : (h.run (Cmd.str (pip ++ " freeze"))).rc = 0 <;>
      simp [h0, h1, lastFailOnly, isPipListCmd, strEndsWith_append]

/-- `pipFreezeBefore` inherits the `_get_packages` abort discipline. -/
theorem pipFreezeBefore_lfo (h : Host) (pip : String) (cond : Bool) :
    lastFailOnly (fun e => decide (e.2.rc = 0) || isPipListCmd e.1)
      (pipFreezeBefore h pip cond).2 = true := by
  unfold pipFreezeBefore
  by_cases hc : cond = true
  · simp only [hc, if_true, ite_true]
    have hs := get_packages_lfo h pip
    cases hg : _get_packages h pip with
    | mk r app =>
      rw [hg] at hs
      cases r <;> simpa using hs
  · simp [hc, lastFailOnly]

/-- `pipFreezeBefore` runs only shell-string commands. -/
theorem pipFreezeBefore_str (h : Host) (pip : String) (cond : Bool) :
    (pipFreezeBefore h pip cond).2.all strCmdOnly = true := by
  unfold pipFreezeBefore
  by_cases hc : cond = true
  · simp only [hc, if_true, ite_true]
    have hs := (get_packages_spec h pip).1
    cases hg : _get_packages h pip with
    | mk r app =>
      rw [hg] at hs
      cases r <;> simpa using hs
  · simp [hc]

/-- `pipRunStep`: its trace obeys the abort discipline and contains at
most one install/uninstall invocation. -/
theorem pipRunStep_discipline (p : PipParams) (h : Host) (venvCreated : Bool)
    (out err pip : String) (cmd : List String) (freezeBefore : Option String) :
    lastFailOnly (pipOkEntry p.state)
      (pipRunStep p h venvCreated out err pip cmd freezeBefore).2 = true ∧
    List.countP actionEntry
      (pipRunStep p h venvCreated out err pip cmd freezeBefore).2 ≤ 1 := by
  unfold pipRunStep
  try dsimp only
  split
  case _ hpass0 =>
    exact ⟨lastFailOnly_short _ _ (by simp), countP_single_le _ _⟩
  case _ hpass =>
    have hentry : pipOkEntry p.state (Cmd.argv cmd, h.run (Cmd.argv cmd)) = true := by
      apply pipOk_of_pass
      by_cases hA : (decide ((h.run (Cmd.argv cmd)).rc = 1) &&
          decide (p.state = PipState.absent) &&
          (pyContains (h.run (Cmd.argv cmd)).out "not installed" ||
            pyContains (h.run (Cmd.argv cmd)).err "not installed")) = true
      · exact Or.inl hA
      · right
        have hA2 : (decide ((h.run (Cmd.argv cmd)).rc = 1) &&
            decide (p.state = PipState.absent) &&
            (pyContains (h.run (Cmd.argv cmd)).out "not installed" ||
              pyContains (h.run (Cmd.argv cmd)).err "not installed")) = false := by
          cases hAv : (decide ((h.run (Cmd.argv cmd)).rc = 1) &&
              decide (p.state = PipState.absent) &&
              (pyContains (h.run (Cmd.argv cmd)).out "not installed" ||
                pyContains (h.run (Cmd.argv cmd)).err "not installed"))
          · rfl
          · exact absurd hAv hA
        by_cases hB : (h.run (Cmd.argv cmd)).rc = 0
        · exact hB
        · exfalso
          apply hpass
          rw [hA2]
          simp [hB]
    split
    case _ o app2 heq2 =>
      have happ2 : app2.all strCmdOnly = true ∧
          lastFailOnly (pipOkEntry p.state) app2 = true := by
        split at heq2
        · exact absurd heq2 (by simp)
        · split at heq2
          · exact absurd heq2 (by simp)
          · split at heq2
            case _ o3 app3 heq3 =>
              simp only [Prod.mk.injEq, Except.error.injEq] at heq2
              obtain ⟨ho3, happ3⟩ := heq2
              constructor
              · have hs := (get_packages_spec h pip).1
                rw [heq3] at hs
                rw [← happ3]
                simpa using hs
              · have hs := get_packages_lfo h pip
                rw [heq3] at hs
                rw [← happ3]
                exact lastFailOnly_mono _ _ (pipOk_of_listing_e p.state) _ (by simpa using hs)
            case _ => exact absurd heq2 (by simp)
      refine ⟨?_, ?_⟩
      · exact lastFailOnly_append _ _ _ (by simpa using hentry) happ2.2
      · rw [List.countP_append,
          countP_zero_of_all app2 _ _ happ2.1 strCmd_not_action]
        simpa using countP_single_le actionEntry (Cmd.argv cmd, h.run (Cmd.argv cmd))
    case _ chg app2 heq2 =>
      have happ2 : app2.all strCmdOnly = true ∧
          lastFailOnly (pipOkEntry p.state) app2 = true := by
        split at heq2
        · rw [show app2 = [] from by injection heq2 with _ hx; exact hx.symm]
          exact ⟨rfl, rfl⟩
        · split at heq2
          · rw [show app2 = [] from by injection heq2 with _ hx; exact hx.symm]
            exact ⟨rfl, rfl⟩
          · split at heq2
            case _ => exact absurd heq2 (by simp)
            case _ v app3 heq3 =>
              rw [show app2 = app3 from by injection heq2 with _ hx; exact hx.symm]
              constructor
              · have hs := (get_packages_spec h pip).1
                rw [heq3] at hs
                simpa using hs
              · have hs := get_packages_lfo h pip
                rw [heq3] at hs
                exact lastFailOnly_mono _ _ (pipOk_of_listing_e p.state) _ (by simpa using hs)
      refine ⟨?_, ?_⟩
      · exact lastFailOnly_append _ _ _ (by simpa using hentry) happ2.2
      · rw [List.countP_append,
          countP_zero_of_all app2 _ _ happ2.1 strCmd_not_action]
        simpa using countP_single_le actionEntry (Cmd.argv cmd, h.run (Cmd.argv cmd))

/-- The tail of the pip module obeys the abort discipline and runs at most
one install/uninstall invocation. -/
theorem pipRest_discipline (p : PipParams) (h : Host) (venvCreated : Bool)
    (out err pip : String) (cmd : List String) (packages : List Package)
    (nameL : List String) (extraT hasVcs : Bool) (env1 : Option String) :
    lastFailOnly (pipOkEntry p.state)
      (pipRest p h venvCreated out err pip cmd packages nameL extraT hasVcs env1).2 = true ∧
    List.countP actionEntry
      (pipRest p h venvCreated out err pip cmd packages nameL extraT hasVcs env1).2 ≤ 1 := by
  unfold pipRest
  split
  · -- check mode
    split
    · exact ⟨rfl, by simp⟩
    · split
      case _ o app heq =>
        constructor
        · have hs := get_packages_lfo h pip
          rw [heq] at hs
          exact lastFailOnly_mono _ _ (pipOk_of_listing_e p.state) _ (by simpa using hs)
        · have hstr := (get_packages_spec h pip).1
          rw [heq] at hstr
          have h0 := countP_zero_of_all app _ _ (by simpa using hstr) strCmd_not_action
          simp [h0]
      case _ pkgCmd outP errP app heq =>
        try dsimp only
        have hApp : app.all (fun e => decide (e.2.rc = 0) || isPipListCmd e.1) = true := by
          have hs := (get_packages_spec h pip).2.1 (pkgCmd, outP, errP) (by rw [heq])
          rw [heq] at hs
          simpa using hs
        have hAppStr : app.all strCmdOnly = true := by
          have hs := (get_packages_spec h pip).1
          rw [heq] at hs
          simpa using hs
        have hcnt : List.countP actionEntry app = 0 :=
          countP_zero_of_all app _ _ hAppStr strCmd_not_action
        split
        case _ e heq2 =>
          constructor
          · apply lastFailOnly_all
            rw [List.all_append]
            refine Bool.and_eq_true_iff.mpr ⟨pipOk_of_listing p.state app hApp, ?_⟩
            split
            · rw [List.all_append]
              exact Bool.and_eq_true_iff.mpr
                ⟨pipOk_of_pycheck p.state _ (addSpecial_entries h env1 nameL _ _ _),
                 pipOk_of_pycheck p.state _ (addSpecial_entries h env1 nameL _ _ _)⟩
            · rfl
          · rw [List.countP_append, hcnt]
            split
            · rw [List.countP_append,
                countP_zero_of_all _ _ _ (addSpecial_entries h env1 nameL _ _ _)
                  pycheck_not_action,
                countP_zero_of_all _ _ _ (addSpecial_entries h env1 nameL _ _ _)
                  pycheck_not_action]
              simp
            · simp
        case _ chg heq2 =>
          constructor
          · apply lastFailOnly_all
            rw [List.all_append]
            refine Bool.and_eq_true_iff.mpr ⟨pipOk_of_listing p.state app hApp, ?_⟩
            split
            · rw [List.all_append]
              exact Bool.and_eq_true_iff.mpr
                ⟨pipOk_of_pycheck p.state _ (addSpecial_entries h env1 nameL _ _ _),
                 pipOk_of_pycheck p.state _ (addSpecial_entries h env1 nameL _ _ _)⟩
            · rfl
          · rw [List.countP_append, hcnt]
            split
            · rw [List.countP_append,
                countP_zero_of_all _ _ _ (addSpecial_entries h env1 nameL _ _ _)
                  pycheck_not_action,
                countP_zero_of_all _ _ _ (addSpecial_entries h env1 nameL _ _ _)
                  pycheck_not_action]
              simp
            · simp
  · -- real run
    split
    case _ o appF heq =>
      constructor
      · have hs := pipFreezeBefore_lfo h pip (optTruthy p.requirements || hasVcs)
        rw [heq] at hs
        exact lastFailOnly_mono _ _ (pipOk_of_listing_e p.state) _ (by simpa using hs)
      · have hstr := pipFreezeBefore_str h pip (optTruthy p.requirements || hasVcs)
        rw [heq] at hstr
        have h0 := countP_zero_of_all appF _ _ (by simpa using hstr) strCmd_not_action
        simp [h0]
    case _ fb appF heq =>
      try dsimp only
      have hAppF : appF.all (pipOkEntry p.state) = true := by
        have hb := pipFreezeBefore_spec h pip (optTruthy p.requirements || hasVcs)
        have hl := hb.1 fb (by rw [heq])
        rw [heq] at hl
        exact pipOk_of_listing p.state appF (by simpa using hl)
      have hAppFstr : appF.all strCmdOnly = true := by
        have hs := pipFreezeBefore_str h pip (optTruthy p.requirements || hasVcs)
        rw [heq] at hs
        simpa using hs
      obtain ⟨hrl, hrc⟩ := pipRunStep_discipline p h venvCreated out err pip cmd fb
      constructor
      · exact lastFailOnly_append _ _ _ hAppF hrl
      · rw [List.countP_append,
          countP_zero_of_all appF _ _ hAppFstr strCmd_not_action]
        simpa using hrc

/-- The pip module's `try:` body obeys the abort discipline and runs at
most one install/uninstall invocation. -/
theorem pipMainTry_discipline (p : PipParams) (h : Host) :
    lastFailOnly (pipOkEntry p.state) (pipMainTry p h).2 = true ∧
    List.countP actionEntry (pipMainTry p h).2 ≤ 1 := by
  unfold pipMainTry
  try dsimp only
  split
  · exact ⟨rfl, by simp⟩
  · obtain ⟨hE, hOk, hErr, hEx⟩ :=
      venvStepRun_spec h (pipVenvArgs p) (p.chdir.getD h.tmpdir)
        (envAdjust p.virtualenv p.chdir)
    have hlfo0 := venvStepRun_lfo h (pipVenvArgs p) (p.chdir.getD h.tmpdir)
      (envAdjust p.virtualenv p.chdir)
    split
    case _ o app0 heq =>
      rw [heq] at hE hlfo0
      constructor
      · exact lastFailOnly_mono _ _ (pipOk_of_rc0_e p.state) _ (by simpa using hlfo0)
      · have h0 := countP_zero_of_all app0 _ _ (by simpa using hE) strCmd_not_action
        simp [h0]
    case _ vc outv errv app0 heq =>
      rw [heq] at hE hOk
      have happ0 : app0.all (pipOkEntry p.state) = true :=
        pipOk_of_rc0 p.state app0 (by simpa using hOk (vc, outv, errv) rfl)
      have hcnt0 : List.countP actionEntry app0 = 0 :=
        countP_zero_of_all app0 _ _ (by simpa using hE) strCmd_not_action
      split
      case _ o heq2 =>
        exact ⟨lastFailOnly_all _ _ happ0, by simp [hcnt0]⟩
      case _ pip heq2 =>
        split
        case _ o heq3 =>
          exact ⟨lastFailOnly_all _ _ happ0, by simp [hcnt0]⟩
        case _ packages heq3 =>
          try dsimp only
          split
          · try dsimp only
            obtain ⟨hrl, hrc⟩ := pipRest_discipline p h vc outv errv pip _ packages
              (p.name.getD []) _ _ (envAdjust p.virtualenv p.chdir)
            constructor
            · exact lastFailOnly_append _ _ _ happ0 hrl
            · rw [List.countP_append, hcnt0]
              simpa using hrc
          · split
            · try dsimp only
              obtain ⟨hrl, hrc⟩ := pipRest_discipline p h vc outv errv pip _ packages
                (p.name.getD []) _ _ (envAdjust p.virtualenv p.chdir)
              constructor
              · exact lastFailOnly_append _ _ _ happ0 hrl
              · rw [List.countP_append, hcnt0]
                simpa using hrc
            · exact ⟨lastFailOnly_all _ _ happ0, by simp [hcnt0]⟩

/-- The whole pip-module `main()` obeys the abort discipline and runs at
most one install/uninstall invocation. -/
theorem pipMainRun_discipline (p : PipParams) (h : Host) (u0 : Int) (v0 : Option String) :
    lastFailOnly (pipOkEntry p.state) (pipMainRun p h u0 v0).trace = true ∧
    List.countP actionEntry (pipMainRun p h u0 v0).trace ≤ 1 := by
  obtain ⟨hl, hc⟩ := pipMainTry_discipline p h
  unfold pipMainRun
  cases hmt : pipMainTry p h with
  | mk o tr =>
    rw [hmt] at hl hc
    cases hu : p.umask with
    | none =>
      try dsimp only
      exact ⟨hl, hc⟩
    | some u =>
      try dsimp only
      by_cases hu0 : u = ""
      · rw [if_pos hu0]
        exact ⟨rfl, by simp⟩
      · rw [if_neg hu0]
        cases hpo : parseOctal u with
        | none => exact ⟨rfl, by simp⟩
        | some n =>
          try dsimp only
          exact ⟨hl, hc⟩

/-- The trace of `pipenvInstallStep`: nothing, or the single
`pip install pipenv` invocation. -/
theorem pipenvInstallStep_trace (h : Host) (pres : Bool) (env1 : Option String)
    (out err : String) :
    (pipenvInstallStep h pres env1 out err).2 = [] ∨
    (pipenvInstallStep h pres env1 out err).2 =
      [(Cmd.argv ["pip", "install", "pipenv"],
        h.run (Cmd.argv ["pip", "install", "pipenv"]))] := by
  unfold pipenvInstallStep
  by_cases hc : (!pres && optTruthy env1) = true
  · simp only [hc, if_true, ite_true]
    by_cases hrc : (h.run (Cmd.argv ["pip", "install", "pipenv"])).rc = 0
    · right
      simp [hrc]
    · right
      simp [hrc]
  · left
    simp [hc]

/-- `pipenvInstallStep` never runs a sync command, runs at most one
install/uninstall invocation, and obeys the abort discipline. -/
theorem pipenvInstallStep_counts (h : Host) (pres : Bool) (env1 : Option String)
    (out err : String) :
    List.countP syncEntry (pipenvInstallStep h pres env1 out err).2 = 0 ∧
    List.countP actionEntry (pipenvInstallStep h pres env1 out err).2 ≤ 1 ∧
    lastFailOnly pipenvOkEntry (pipenvInstallStep h pres env1 out err).2 = true := by
  rcases pipenvInstallStep_trace h pres env1 out err with ht | ht <;> rw [ht]
  · exact ⟨rfl, by simp, rfl⟩
  · refine ⟨?_, countP_single_le _ _, lastFailOnly_short _ _ (by simp)⟩
    have hsync : syncEntry (Cmd.argv ["pip", "install", "pipenv"],
        h.run (Cmd.argv ["pip", "install", "pipenv"])) = false := rfl
    simp [List.countP_cons, hsync]

/-- A zero exit or a listing probe is a `pipenvOkEntry` (pointwise
form). -/
theorem pipenvOk_of_listing_e (e : Entry)
    (hr : (decide (e.2.rc = 0) || isPipListCmd e.1) = true) : pipenvOkEntry e = true := hr

/-- The pipenv module's `try:` body obeys the abort discipline, runs
`pipenv sync` at most once and an install invocation at most once. -/
theorem pipenvMainTry_discipline (p : PipenvParams) (h : Host) (v0 : Option String) :
    lastFailOnly pipenvOkEntry (pipenvMainTry p h v0).2.1 = true ∧
    List.countP syncEntry (pipenvMainTry p h v0).2.1 ≤ 1 ∧
    List.countP actionEntry (pipenvMainTry p h v0).2.1 ≤ 1 := by
  unfold pipenvMainTry
  try dsimp only
  obtain ⟨hE, hOk, hErr, hEx⟩ :=
    venvStepRun_spec h (pipenvVenvArgs p) (p.chdir.getD h.tmpdir)
      (envAdjust p.virtualenv p.chdir)
  have hlfo0 := venvStepRun_lfo h (pipenvVenvArgs p) (p.chdir.getD h.tmpdir)
    (envAdjust p.virtualenv p.chdir)
  split
  case _ o app0 heq =>
    rw [heq] at hE hlfo0
    refine ⟨lastFailOnly_mono _ _ pipenvOk_of_rc0_e _ (by simpa using hlfo0), ?_, ?_⟩
    · have h0 := countP_zero_of_all app0 _ _ (by simpa using hE) strCmd_not_sync
      simp [h0]
    · have h0 := countP_zero_of_all app0 _ _ (by simpa using hE) strCmd_not_action
      simp [h0]
  case _ vc outv errv app0 heq =>
    rw [heq] at hE hOk
    have happ0 : app0.all pipenvOkEntry = true :=
      pipenvOk_of_rc0 app0 (by simpa using hOk (vc, outv, errv) rfl)
    have hstr0 : app0.all strCmdOnly = true := by simpa using hE
    have hsync0 := countP_zero_of_all app0 _ _ hstr0 strCmd_not_sync
    have hact0 := countP_zero_of_all app0 _ _ hstr0 strCmd_not_action
    split
    case _ o heq2 =>
      exact ⟨lastFailOnly_all _ _ happ0, by simp [hsync0], by simp [hact0]⟩
    case _ pip heq2 =>
      obtain ⟨hgE, hgOk, hgErr⟩ := get_packages_spec h pip
      have hglfo := get_packages_lfo h pip
      split
      case _ o app1 heq3 =>
        rw [heq3] at hgE hglfo
        have hstr1 : app1.all strCmdOnly = true := by simpa using hgE
        refine ⟨?_, ?_, ?_⟩
        · exact lastFailOnly_append _ _ _ happ0
            (lastFailOnly_mono _ _ pipenvOk_of_listing_e _ (by simpa using hglfo))
        · have h1 := countP_zero_of_all app1 _ _ hstr1 strCmd_not_sync
          simp [List.countP_append, hsync0, h1]
        · have h1 := countP_zero_of_all app1 _ _ hstr1 strCmd_not_action
          simp [List.countP_append, hact0, h1]
      case _ packagesT app1 heq3 =>
        try dsimp only
        rw [heq3] at hgOk hgE
        have happ1 : app1.all pipenvOkEntry = true := by
          have hall := hgOk packagesT rfl
          exact all_imp app1 _ _ hall (fun e he => by
            have he2 : e.2.rc = 0 ∨ isPipListCmd e.1 = true := by simpa using he
            rcases he2 with h1 | h1 <;> simp [pipenvOkEntry, h1])
        have hstr1 : app1.all strCmdOnly = true := by simpa using hgE
        have hsync1 := countP_zero_of_all app1 _ _ hstr1 strCmd_not_sync
        have hact1 := countP_zero_of_all app1 _ _ hstr1 strCmd_not_action
        split
        case _ pe hpe =>
          exact ⟨lastFailOnly_append _ _ _ happ0 (lastFailOnly_all _ _ happ1),
            by simp [List.countP_append, hsync0, hsync1],
            by simp [List.countP_append, hact0, hact1]⟩
        case _ pres hpres =>
          obtain ⟨hiOk, hiErr⟩ := pipenvInstallStep_spec h pres
            (envAdjust p.virtualenv p.chdir) outv errv
          obtain ⟨hisync, hiact, hilfo⟩ := pipenvInstallStep_counts h pres
            (envAdjust p.virtualenv p.chdir) outv errv
          split
          case _ o app2 heq4 =>
            rw [heq4] at hisync hiact hilfo
            refine ⟨?_, ?_, ?_⟩
            · refine lastFailOnly_append _ _ _ ?_ (by simpa using hilfo)
              rw [List.all_append]
              exact Bool.and_eq_true_iff.mpr ⟨happ0, happ1⟩
            · have h2 : List.countP syncEntry app2 = 0 := by simpa using hisync
              simp [List.countP_append, hsync0, hsync1, h2]
            · have h2 : List.countP actionEntry app2 ≤ 1 := by simpa using hiact
              rw [List.countP_append, List.countP_append, hact0, hact1]
              simpa using h2
          case _ vi outi erri app2 heq4 =>
            try dsimp only
            rw [heq4] at hiOk hisync hiact
            have happ2 : app2.all pipenvOkEntry = true :=
              pipenvOk_of_rc0 app2 (by simpa using hiOk (vi, outi, erri) rfl)
            have hsync2 : List.countP syncEntry app2 = 0 := by simpa using hisync
            have hact2 : List.countP actionEntry app2 ≤ 1 := by simpa using hiact
            have hallpre : ((app0 ++ app1) ++ app2).all pipenvOkEntry = true := by
              simp only [List.all_append]
              exact Bool.and_eq_true_iff.mpr
                ⟨Bool.and_eq_true_iff.mpr ⟨happ0, happ1⟩, happ2⟩
            split
            · exact ⟨lastFailOnly_all _ _ hallpre,
                by simp [List.countP_append, hsync0, hsync1, hsync2],
                by
                  rw [List.countP_append, List.countP_append, hact0, hact1]
                  simpa using hact2⟩
            case _ pa hpa =>
              rw [if_pos (show has_changes (pathJoin pa "Pipfile.lock") pip = true from rfl)]
              split
              case _ o heq5 =>
                exact ⟨lastFailOnly_all _ _ hallpre,
                  by simp [List.countP_append, hsync0, hsync1, hsync2],
                  by
                    rw [List.countP_append, List.countP_append, hact0, hact1]
                    simpa using hact2⟩
              case _ pvBin heq5 =>
                try dsimp only
                have hsa : actionEntry (Cmd.argv [pvBin, "sync"],
                    h.run (Cmd.argv [pvBin, "sync"])) = false := rfl
                by_cases hrc : (h.run (Cmd.argv [pvBin, "sync"])).rc = 0
                · simp only [hrc, ne_eq, not_true_eq_false, if_false, ite_false]
                  refine ⟨lastFailOnly_snoc _ _ _ hallpre, ?_, ?_⟩
                  · rw [List.countP_append, List.countP_append, List.countP_append,
                      hsync0, hsync1, hsync2]
                    simpa using countP_single_le syncEntry (Cmd.argv [pvBin, "sync"],
                      h.run (Cmd.argv [pvBin, "sync"]))
                  · rw [List.countP_append, List.countP_append, List.countP_append,
                      hact0, hact1]
                    have h3 : List.countP actionEntry [(Cmd.argv [pvBin, "sync"],
                        h.run (Cmd.argv [pvBin, "sync"]))] = 0 := by
                      simp [List.countP_cons, hsa]
                    rw [h3]
                    simpa using hact2
                · simp only [hrc, ne_eq, not_false_eq_true, if_true, ite_true]
                  refine ⟨lastFailOnly_snoc _ _ _ hallpre, ?_, ?_⟩
                  · rw [List.countP_append, List.countP_append, List.countP_append,
                      hsync0, hsync1, hsync2]
                    simpa using countP_single_le syncEntry (Cmd.argv [pvBin, "sync"],
                      h.run (Cmd.argv [pvBin, "sync"]))
                  · rw [List.countP_append, List.countP_append, List.countP_append,
                      hact0, hact1]
                    have h3 : List.countP actionEntry [(Cmd.argv [pvBin, "sync"],
                        h.run (Cmd.argv [pvBin, "sync"]))] = 0 := by
                      simp [List.countP_cons, hsa]
                    rw [h3]
                    simpa using hact2

/-- The whole pipenv-module `main()` obeys the abort discipline, runs
`pipenv sync` at most once and an install invocation at most once. -/
theorem pipenvMainRun_discipline (p : PipenvParams) (h : Host) (u0 : Int)
    (v0 : Option String) :
    lastFailOnly pipenvOkEntry (pipenvMainRun p h u0 v0).trace = true ∧
    List.countP syncEntry (pipenvMainRun p h u0 v0).trace ≤ 1 ∧
    List.countP actionEntry (pipenvMainRun p h u0 v0).trace ≤ 1 := by
  obtain ⟨hl, hs, ha⟩ := pipenvMainTry_discipline p h v0
  unfold pipenvMainRun
  cases hmt : pipenvMainTry p h v0 with
  | mk o rest =>
    obtain ⟨tr, v1⟩ := rest
    rw [hmt] at hl hs ha
    cases hu : p.umask with
    | none =>
      try dsimp only
      exact ⟨hl, hs, ha⟩
    | some u =>
      try dsimp only
      by_cases hu0 : u = ""
      · rw [if_pos hu0]
        exact ⟨rfl, by simp, by simp⟩
      · rw [if_neg hu0]
        cases hpo : parseOctal u with
        | none => exact ⟨rfl, by simp, by simp⟩
        | some n =>
          try dsimp only
          exact ⟨hl, hs, ha⟩

/-- `_get_packages` fails exactly when both the listing command and the
`pip freeze` fallback exit nonzero. -/
theorem get_packages_err_iff (h : Host) (pip : String) :
    (∃ o, (_get_packages h pip).1 = .error o) ↔
      ((h.run (Cmd.str (pip ++ " list --format=freeze"))).rc ≠ 0 ∧
       (h.run (Cmd.str (pip ++ " freeze"))).rc ≠ 0) := by
  unfold _get_packages
  by_cases h0 : (h.run (Cmd.str (pip ++ " list --format=freeze"))).rc = 0
  · simp [h0]
  · by_cases h1 : (h.run (Cmd.str (pip ++ " freeze"))).rc = 0
    · simp [h0, h1]
    · simp [h0, h1]

/-- C6 (amended): there is exactly one retry in the two modules, the
installed-package listing.  `_get_packages` runs `pip list --format=freeze`
once; exactly when that exits nonzero it runs `pip freeze` once,
immediately after, and it fails only if that fallback also exits nonzero.
Install/uninstall invocations and `pipenv sync` run at most once per
`main()` execution, and no other retry or recovery exists: in any full run
of either module, an entry exiting nonzero that is not tolerated (the three
tolerated exits of the error-reporting analysis) is the last command run —
the module aborts instead of retrying. -/
theorem subprocess_invocation_discipline (p : PipParams) (pp : PipenvParams)
    (h hp hg : Host) (pip : String) (u0 up : Int) (v0 vp : Option String) :
    ((hg.run (Cmd.str (pip ++ " list --format=freeze"))).rc = 0 →
      (_get_packages hg pip).2 =
        [(Cmd.str (pip ++ " list --format=freeze"),
          hg.run (Cmd.str (pip ++ " list --format=freeze")))]) ∧
    ((hg.run (Cmd.str (pip ++ " list --format=freeze"))).rc ≠ 0 →
      (_get_packages hg pip).2 =
        [(Cmd.str (pip ++ " list --format=freeze"),
          hg.run (Cmd.str (pip ++ " list --format=freeze"))),
         (Cmd.str (pip ++ " freeze"), hg.run (Cmd.str (pip ++ " freeze")))]) ∧
    ((∃ o, (_get_packages hg pip).1 = .error o) ↔
      ((hg.run (Cmd.str (pip ++ " list --format=freeze"))).rc ≠ 0 ∧
       (hg.run (Cmd.str (pip ++ " freeze"))).rc ≠ 0)) ∧
    List.countP actionEntry (pipMainRun p h u0 v0).trace ≤ 1 ∧
    List.countP syncEntry (pipenvMainRun pp hp up vp).trace ≤ 1 ∧
    List.countP actionEntry (pipenvMainRun pp hp up vp).trace ≤ 1 ∧
    lastFailOnly (pipOkEntry p.state) (pipMainRun p h u0 v0).trace = true ∧
    lastFailOnly pipenvOkEntry (pipenvMainRun pp hp up vp).trace = true := by
  obtain ⟨hshape0, hshape1, -⟩ := get_packages_trace_cases hg pip
  obtain ⟨hl1, hc1⟩ := pipMainRun_discipline p h u0 v0
  obtain ⟨hl2, hs2, ha2⟩ := pipenvMainRun_discipline pp hp up vp
  exact ⟨hshape0, hshape1, get_packages_err_iff hg pip, hc1, hs2, ha2, hl1, hl2⟩

/-- C6 witness: the discipline instantiated on the failing-listing host
(the fallback trace is recorded verbatim) and on a concrete pipenv run. -/
theorem subprocess_invocation_discipline_witness :
    (_get_packages hostListFails "pip").2 =
      [(Cmd.str ("pip" ++ " list --format=freeze"),
        hostListFails.run (Cmd.str ("pip" ++ " list --format=freeze"))),
       (Cmd.str ("pip" ++ " freeze"), hostListFails.run (Cmd.str ("pip" ++ " freeze")))] ∧
    List.countP syncEntry (pipenvMainRun { path := some "/app" } hostOk 18 none).trace ≤ 1 := by
  obtain ⟨-, h2, -, -, h5, -, -, -⟩ :=
    subprocess_invocation_discipline {} { path := some "/app" } hostOk hostOk hostListFails
      "pip" 18 18 none none
  exact ⟨h2 (by decide), h5⟩

end AnsPip
